import Mathlib

/-! The classes `iCub::iDynTree::FTSensor` and `iCub::iDynTree::DynTree` of codyco-modules.

Shallow embedding of `src/iDynTree/include/iCub/iDynTree/DynTree.h`.

* `KDL::Frame`, `KDL::Wrench` and the scalar type `double` belong to the KDL
  library, which the header only includes.  The embedding takes them as type
  parameters `Frame`, `Wrench`, `Scalar`; the operators the header uses
  (`Frame * Wrench`, `Frame * Frame`, `Frame::Identity()`, the literal `0.0`)
  are the instances `HMul Frame Wrench Wrench`, `Mul Frame`, `One Frame`,
  `Zero Scalar`.
* `KDL::CoDyCo::TreeGraph` is only included too; the two queries the header
  makes on it are the fields of `TreeGraph`.
* Where a property depends on what the operators of KDL compute, the types are
  those of `namespace KDL` below: vectors, rotations, frames and wrenches with
  coordinates in a type `R` that has `+`, `-`, `*`, `0` and `1`, with the
  operators as KDL defines them.  In a commutative ring the arithmetic is
  exact; `IntDouble` is the arithmetic of `double` on integer values, with the
  rounding of IEEE 754.
* `assert` is embedded with assertions enabled: a failed assertion aborts the
  call (`Fatal.assertion`).  `std::vector::operator[]` outside the vector is
  undefined behaviour in C++ and is embedded as `Fatal.outOfRange`.
-/

namespace KDL

/-- The enumeration `KDL::Joint::JointType`; `None` is the joint with zero degrees of freedom. -/
inductive JointType where
  | RotAxis | RotX | RotY | RotZ | TransAxis | TransX | TransY | TransZ | None
  deriving DecidableEq, Repr

/-- A `KDL::Vector` with coordinates in `R`. -/
structure Vector (R : Type) where
  x : R
  y : R
  z : R
  deriving DecidableEq, Repr

/-- A `KDL::Rotation`: nine coefficients, row by row. -/
structure Rotation (R : Type) where
  xx : R
  xy : R
  xz : R
  yx : R
  yy : R
  yz : R
  zx : R
  zy : R
  zz : R
  deriving DecidableEq, Repr

/-- A `KDL::Frame`: rotation `M` and origin `p`. -/
structure Frame (R : Type) where
  M : Rotation R
  p : Vector R
  deriving DecidableEq, Repr

/-- A `KDL::Wrench`: force and torque. -/
structure Wrench (R : Type) where
  force : Vector R
  torque : Vector R
  deriving DecidableEq, Repr

/-- A `KDL::Twist`: linear velocity `vel` and angular velocity `rot`. -/
structure Twist (R : Type) where
  vel : Vector R
  rot : Vector R
  deriving DecidableEq, Repr

section ops
variable {R : Type} [Add R] [Sub R] [Mul R] [Zero R] [One R]

/-- Sum of two vectors. -/
def Vector.add (a b : Vector R) : Vector R :=
  ⟨a.x + b.x, a.y + b.y, a.z + b.z⟩

/-- Cross product, the `operator*` of two `KDL::Vector`s. -/
def Vector.cross (a b : Vector R) : Vector R :=
  ⟨a.y * b.z - a.z * b.y, a.z * b.x - a.x * b.z, a.x * b.y - a.y * b.x⟩

/-- Rotation applied to a vector. -/
def Rotation.apply (m : Rotation R) (v : Vector R) : Vector R :=
  ⟨m.xx * v.x + m.xy * v.y + m.xz * v.z,
   m.yx * v.x + m.yy * v.y + m.yz * v.z,
   m.zx * v.x + m.zy * v.y + m.zz * v.z⟩

/-- Product of two rotations. -/
def Rotation.mul (a b : Rotation R) : Rotation R :=
  ⟨a.xx * b.xx + a.xy * b.yx + a.xz * b.zx,
   a.xx * b.xy + a.xy * b.yy + a.xz * b.zy,
   a.xx * b.xz + a.xy * b.yz + a.xz * b.zz,
   a.yx * b.xx + a.yy * b.yx + a.yz * b.zx,
   a.yx * b.xy + a.yy * b.yy + a.yz * b.zy,
   a.yx * b.xz + a.yy * b.yz + a.yz * b.zz,
   a.zx * b.xx + a.zy * b.yx + a.zz * b.zx,
   a.zx * b.xy + a.zy * b.yy + a.zz * b.zy,
   a.zx * b.xz + a.zy * b.yz + a.zz * b.zz⟩

/-- The rotation `KDL::Rotation::Identity()`. -/
def Rotation.Identity : Rotation R :=
  ⟨1, 0, 0, 0, 1, 0, 0, 0, 1⟩

/-- The frame `KDL::Frame::Identity()`. -/
def Frame.Identity : Frame R :=
  ⟨Rotation.Identity, ⟨0, 0, 0⟩⟩

/-- Composition of frames: `Frame(lhs.M*rhs.M, lhs.M*rhs.p + lhs.p)`. -/
def Frame.mul (a b : Frame R) : Frame R :=
  ⟨a.M.mul b.M, (a.M.apply b.p).add a.p⟩

/-- A frame applied to a wrench: the force is rotated, the torque is rotated
and the moment of the rotated force about the origin `p` is added. -/
def Frame.applyWrench (f : Frame R) (w : Wrench R) : Wrench R :=
  ⟨f.M.apply w.force, (f.M.apply w.torque).add (f.p.cross (f.M.apply w.force))⟩

/-- The transpose, which `KDL::Rotation::Inverse()` returns. -/
def Rotation.Inverse (m : Rotation R) : Rotation R :=
  ⟨m.xx, m.yx, m.zx, m.xy, m.yy, m.zy, m.xz, m.yz, m.zz⟩

/-- The determinant of the nine coefficients. -/
def Rotation.det (m : Rotation R) : R :=
  m.xx * (m.yy * m.zz - m.yz * m.zy) - m.xy * (m.yx * m.zz - m.yz * m.zx)
    + m.xz * (m.yx * m.zy - m.yy * m.zx)

/-- The nine coefficients are those of a rotation: the matrix times its
transpose is the identity and its determinant is 1.  The class
`KDL::Rotation` stores any nine numbers and leaves this to its user. -/
def Rotation.IsRotation (m : Rotation R) : Prop :=
  m.mul m.Inverse = Rotation.Identity ∧ m.det = 1

instance : Mul (Frame R) := ⟨Frame.mul⟩
instance : One (Frame R) := ⟨Frame.Identity⟩
instance : HMul (Frame R) (Wrench R) (Wrench R) := ⟨Frame.applyWrench⟩

end ops

end KDL

/-! ## The arithmetic of `double` on integers

A `double` of IEEE 754 has a significand of 53 bits.  An integer of magnitude
below `2^53` is a `double`; the sum, difference or product of two `double`s is
the exact result rounded to the nearest `double`, to the one with the even
significand when two are equally near.  The exact result of an operation on
integers is an integer and so is its rounding, so the `double`s with an integer
value are closed under `+`, `-` and `*` (magnitudes stay far below the largest
`double` here; the sign of a zero is not kept, `0.0 == -0.0` in C++). -/

/-- The number of low bits by which the magnitude `m` exceeds 53 bits. -/
def excessBits : Nat → Nat → Nat
  | 0, _ => 0
  | fuel + 1, m => if m < 2 ^ 53 then 0 else excessBits fuel (m / 2) + 1

/-- The magnitude `m` rounded to 53 significant bits, to nearest, ties to even. -/
def roundMagnitude (m : Nat) : Nat :=
  if 2 * (m % 2 ^ excessBits 1100 m) < 2 ^ excessBits 1100 m then
    m / 2 ^ excessBits 1100 m * 2 ^ excessBits 1100 m
  else if 2 ^ excessBits 1100 m < 2 * (m % 2 ^ excessBits 1100 m) then
    (m / 2 ^ excessBits 1100 m + 1) * 2 ^ excessBits 1100 m
  else
    (m / 2 ^ excessBits 1100 m + m / 2 ^ excessBits 1100 m % 2) * 2 ^ excessBits 1100 m

/-- The integer `n` rounded to the nearest `double`. -/
def roundToDouble (n : Int) : Int :=
  if n < 0 then -(roundMagnitude n.natAbs : Int) else (roundMagnitude n.natAbs : Int)

/-- A `double` whose value is an integer. -/
structure IntDouble where
  val : Int
  deriving DecidableEq, Repr

instance : Add IntDouble := ⟨fun a b => ⟨roundToDouble (a.val + b.val)⟩⟩
instance : Sub IntDouble := ⟨fun a b => ⟨roundToDouble (a.val - b.val)⟩⟩
instance : Mul IntDouble := ⟨fun a b => ⟨roundToDouble (a.val * b.val)⟩⟩
instance : Zero IntDouble := ⟨⟨0⟩⟩
instance : One IntDouble := ⟨⟨1⟩⟩

namespace iDynTree

open KDL (JointType)

/-- Why a call does not return. -/
inductive Fatal where
  /-- an `assert` whose condition is false -/
  | assertion
  /-- an `operator[]` outside the vector -/
  | outOfRange
  deriving DecidableEq, Repr

/-- The queries `FTSensor` makes on a `KDL::CoDyCo::TreeGraph`, by link index. -/
structure TreeGraph (Scalar Frame : Type) where
  /-- The type `getLink(a)->getAdjacentJoint(getLink(b))->joint.getType()`. -/
  adjacentJointType : Int → Int → JointType
  /-- The frame `getLink(a)->pose(getLink(b), q)`. -/
  pose : Int → Int → Scalar → Frame

/-- The private fields of `class FTSensor`. -/
structure FTSensor (Scalar Frame : Type) where
  tree_graph : TreeGraph Scalar Frame
  fixed_joint_name : String
  H_parent_sensor : Frame
  parent : Int
  child : Int
  sensor_id : Int

section FTSensorMethods
variable {Scalar Frame Wrench : Type}

/-- The constructor without a transform: `H_parent_sensor(KDL::Frame::Identity())`. -/
def FTSensor.newIdentity [One Frame] (_tree_graph : TreeGraph Scalar Frame)
    (_fixed_joint_name : String) (_parent _child _sensor_id : Int) : FTSensor Scalar Frame :=
  { tree_graph := _tree_graph
    fixed_joint_name := _fixed_joint_name
    H_parent_sensor := 1
    parent := _parent
    child := _child
    sensor_id := _sensor_id }

/-- The constructor that takes `_H_parent_sensor`. -/
def FTSensor.new (_tree_graph : TreeGraph Scalar Frame) (_fixed_joint_name : String)
    (_H_parent_sensor : Frame) (_parent _child _sensor_id : Int) : FTSensor Scalar Frame :=
  { tree_graph := _tree_graph
    fixed_joint_name := _fixed_joint_name
    H_parent_sensor := _H_parent_sensor
    parent := _parent
    child := _child
    sensor_id := _sensor_id }

/-- The expression `measured_wrenches[sensor_id]` for an `int` index. -/
def vectorAt (measured_wrenches : List Wrench) (sensor_id : Int) : Except Fatal Wrench :=
  if 0 ≤ sensor_id then
    match measured_wrenches[sensor_id.toNat]? with
    | some w => .ok w
    | none => .error Fatal.outOfRange
  else .error Fatal.outOfRange

/-- An `assert(cond)`. -/
def assert (cond : Bool) : Except Fatal Unit :=
  if cond then .ok () else .error Fatal.assertion

/-- The method `FTSensor::getWrenchExcertedOnSubGraph`. -/
def FTSensor.getWrenchExcertedOnSubGraph [Zero Scalar] [HMul Frame Wrench Wrench]
    (s : FTSensor Scalar Frame) (current_link : Int) (measured_wrenches : List Wrench) :
    Except Fatal Wrench :=
  if current_link = s.parent then do
    let f_s ← vectorAt measured_wrenches s.sensor_id
    return s.H_parent_sensor * f_s
  else do
    assert (s.tree_graph.adjacentJointType s.child s.parent == JointType.None)
    let H_child_parent : Frame := s.tree_graph.pose s.parent s.child 0
    assert (current_link == s.child)
    let f_s ← vectorAt measured_wrenches s.sensor_id
    return H_child_parent * (s.H_parent_sensor * f_s)

/-- The method `FTSensor::getH_parent_sensor`. -/
def FTSensor.getH_parent_sensor (s : FTSensor Scalar Frame) : Frame :=
  s.H_parent_sensor

/-- The method `FTSensor::getH_child_sensor`. -/
def FTSensor.getH_child_sensor [Zero Scalar] [Mul Frame] (s : FTSensor Scalar Frame) :
    Except Fatal Frame := do
  assert (s.tree_graph.adjacentJointType s.child s.parent == JointType.None)
  assert (s.tree_graph.adjacentJointType s.parent s.child == JointType.None)
  let H_child_parent : Frame := s.tree_graph.pose s.parent s.child 0
  return H_child_parent * s.H_parent_sensor

/-- The method `FTSensor::getChild`. -/
def FTSensor.getChild (s : FTSensor Scalar Frame) : Int :=
  s.child

/-- The method `FTSensor::getParent`. -/
def FTSensor.getParent (s : FTSensor Scalar Frame) : Int :=
  s.parent

end FTSensorMethods

/-! ## Calls on an `FTSensor` object

The methods above are the values the C++ methods return.  A method is also a
transformer of the object it is called on and of the vector it receives by
reference; none of the bodies assigns to a field or to the vector, so each
call hands both back as it found them. -/

/-- A call of a public method of `FTSensor`. -/
inductive FTSensorCall where
  | getWrenchExcertedOnSubGraph (current_link : Int)
  | getH_parent_sensor
  | getH_child_sensor
  | getChild
  | getParent
  deriving DecidableEq, Repr

/-- What a call of a public method of `FTSensor` gives back. -/
inductive FTSensorReturn (Frame Wrench : Type) where
  | wrench (w : Except Fatal Wrench)
  | frame (f : Except Fatal Frame)
  | link (i : Int)

section FTSensorCalls
variable {Scalar Frame Wrench : Type} [Zero Scalar] [Mul Frame] [HMul Frame Wrench Wrench]

/-- One call: the returned value, the object after the call, and the vector
`measured_wrenches` after the call. -/
def FTSensor.call (s : FTSensor Scalar Frame) (measured_wrenches : List Wrench) :
    FTSensorCall → FTSensorReturn Frame Wrench × FTSensor Scalar Frame × List Wrench
  | .getWrenchExcertedOnSubGraph current_link =>
      (.wrench (s.getWrenchExcertedOnSubGraph current_link measured_wrenches), s, measured_wrenches)
  | .getH_parent_sensor => (.frame (.ok s.getH_parent_sensor), s, measured_wrenches)
  | .getH_child_sensor => (.frame s.getH_child_sensor, s, measured_wrenches)
  | .getChild => (.link s.getChild, s, measured_wrenches)
  | .getParent => (.link s.getParent, s, measured_wrenches)

/-- A sequence of calls: the object and the vector after the last of them. -/
def FTSensor.calls (s : FTSensor Scalar Frame) (measured_wrenches : List Wrench) :
    List FTSensorCall → FTSensor Scalar Frame × List Wrench
  | [] => (s, measured_wrenches)
  | c :: cs =>
      let r : FTSensorReturn Frame Wrench × FTSensor Scalar Frame × List Wrench :=
        s.call measured_wrenches c
      FTSensor.calls r.2.1 r.2.2 cs

end FTSensorCalls

/-! ## `DynTree`

The header declares the state of `DynTree` and its methods; the bodies of the
methods are not part of it.  The fields below are those declared in the header
that the modelled methods read or write, together with the names fixed by the
serialization and the parts of the partition. -/

/-- A named part of the `TreePartition`: the global index of each of its DOFs,
in the order of the local index. -/
structure Part where
  part_name : String
  dofs : List Nat
  deriving DecidableEq, Repr

/-- The state of a `DynTree`. -/
structure DynTree (Scalar : Type) where
  /-- The name of each link of `tree_graph`, in the order of the global link index. -/
  link_names : List String
  /-- The name of each DOF of `tree_graph`, in the order of the global DOF index. -/
  dof_names : List String
  /-- The named parts of `partition`. -/
  partition : List Part
  NrOfDOFs : Nat
  NrOfLinks : Nat
  NrOfFTSensors : Nat
  q : List Scalar
  dq : List Scalar
  ddq : List Scalar
  imu_velocity : KDL.Twist Scalar
  imu_acceleration : KDL.Twist Scalar
  q_min : List Scalar
  q_max : List Scalar
  /-- true if the DOF is subject to limit check, false otherwise -/
  constrained : List Bool
  measured_wrenches : List (KDL.Wrench Scalar)
  torques : List Scalar
  are_contact_estimated : Bool

/-- Modelled from the spec: the numerical result of the backward sweep of
`dynamicRNEA`, whose body is not in the header: the joint torques, and the
wrench each FT sensor would measure ("simulated" measure). -/
structure RNEA (Scalar : Type) where
  torques : DynTree Scalar → List Scalar
  sensor_wrenches : DynTree Scalar → List (KDL.Wrench Scalar)

section DynTreeMethods
variable {Scalar : Type} [LinearOrderedCommRing Scalar]

/-- The counts cached in the state agree with the topology, and every limit
array has one entry per DOF. -/
def DynTree.valid (s : DynTree Scalar) : Prop :=
  s.NrOfLinks = s.link_names.length ∧ s.NrOfDOFs = s.dof_names.length ∧
  s.q_min.length = s.NrOfDOFs ∧ s.q_max.length = s.NrOfDOFs ∧
  s.constrained.length = s.NrOfDOFs

/-- Modelled from the spec: the body of `DynTree::getNrOfDOFs`. -/
def DynTree.getNrOfDOFs (s : DynTree Scalar) : Int :=
  s.NrOfDOFs

/-- Modelled from the spec: the body of `DynTree::getNrOfLinks`. -/
def DynTree.getNrOfLinks (s : DynTree Scalar) : Int :=
  s.NrOfLinks

/-- Modelled from the spec: the lookup of a name in a serialization, the index
of its first occurrence, or -1 when the name is absent. -/
def indexOfName (names : List String) (name : String) : Int :=
  if names.indexOf name < names.length then (names.indexOf name : Int) else -1

/-- Modelled from the spec: the body of `DynTree::getLinkIndex(link_name)`. -/
def DynTree.getLinkIndex (s : DynTree Scalar) (link_name : String) : Int :=
  indexOfName s.link_names link_name

/-- Modelled from the spec: the body of `DynTree::getDOFIndex(dof_name)`. -/
def DynTree.getDOFIndex (s : DynTree Scalar) (dof_name : String) : Int :=
  indexOfName s.dof_names dof_name

/-- Modelled from the spec: the value `setAng(q_in, i)` stores in `q(i)`, whose
body is not in the header: `q_in` clipped to the configured bounds
`[q_min(i), q_max(i)]`. -/
def DynTree.effectiveAng (s : DynTree Scalar) (q_in : Scalar) (i : Nat) : Scalar :=
  match s.q_min[i]?, s.q_max[i]? with
  | some lo, some hi => max lo (min hi q_in)
  | _, _ => q_in

/-- Modelled from the spec: the private `DynTree::setAng(q, i)`: stores the
effective position of DOF `i` and returns it. -/
def DynTree.setAngAt (s : DynTree Scalar) (q_in : Scalar) (i : Nat) : Scalar × DynTree Scalar :=
  (s.effectiveAng q_in i, { s with q := s.q.set i (s.effectiveAng q_in i) })

/-- The effective positions of the DOFs `i, i+1, ...` for the requested ones. -/
def DynTree.effectiveAngFrom (s : DynTree Scalar) : Nat → List Scalar → List Scalar
  | _, [] => []
  | i, v :: vs => s.effectiveAng v i :: DynTree.effectiveAngFrom s (i + 1) vs

/-- The loop `ret_q[k] = setAng(_q[k], dofs[k])` over the DOFs of a part. -/
def DynTree.setAngPart (s : DynTree Scalar) : List Nat → List Scalar → List Scalar × DynTree Scalar
  | i :: dofs, v :: vs =>
      let r : List Scalar × DynTree Scalar := DynTree.setAngPart (s.setAngAt v i).2 dofs vs
      ((s.setAngAt v i).1 :: r.1, r.2)
  | _, _ => ([], s)

/-- The part of the partition with the given name. -/
def DynTree.getPart (s : DynTree Scalar) (part_name : String) : Option Part :=
  s.partition.find? (fun p => p.part_name == part_name)

/-- Modelled from the spec: the body of `DynTree::setAng(_q, part_name)`.  The
result is the vector of effective positions, `none` when the size of `_q` does
not match (or the part does not exist), together with the state after the call. -/
def DynTree.setAng (s : DynTree Scalar) (_q : List Scalar) (part_name : String) :
    Option (List Scalar) × DynTree Scalar :=
  if part_name = "" then
    if _q.length ≠ s.NrOfDOFs then (none, s)
    else (some (s.effectiveAngFrom 0 _q), { s with q := s.effectiveAngFrom 0 _q })
  else
    match s.getPart part_name with
    | none => (none, s)
    | some p =>
        if _q.length ≠ p.dofs.length then (none, s)
        else (some (s.setAngPart p.dofs _q).1, (s.setAngPart p.dofs _q).2)

/-- The entries of a joint array at the DOFs of a part. -/
def partValues (a : List Scalar) (dofs : List Nat) : List Scalar :=
  dofs.map (fun i => a.getD i 0)

/-- A joint array with the entries at the DOFs of a part replaced. -/
def setPartValues (a : List Scalar) : List Nat → List Scalar → List Scalar
  | i :: dofs, v :: vs => setPartValues (a.set i v) dofs vs
  | _, _ => a

/-- Modelled from the spec: the body of `DynTree::getAng(part_name)`. -/
def DynTree.getAng (s : DynTree Scalar) (part_name : String) : Option (List Scalar) :=
  if part_name = "" then some s.q
  else (s.getPart part_name).map (fun p => partValues s.q p.dofs)

/-- Modelled from the spec: the body of `DynTree::setDAng(_q, part_name)`; the
speeds are stored as given. -/
def DynTree.setDAng (s : DynTree Scalar) (_q : List Scalar) (part_name : String) :
    Option (List Scalar) × DynTree Scalar :=
  if part_name = "" then
    if _q.length ≠ s.NrOfDOFs then (none, s)
    else (some _q, { s with dq := _q })
  else
    match s.getPart part_name with
    | none => (none, s)
    | some p =>
        if _q.length ≠ p.dofs.length then (none, s)
        else (some _q, { s with dq := setPartValues s.dq p.dofs _q })

/-- Modelled from the spec: the body of `DynTree::setD2Ang(_q, part_name)`; the
accelerations are stored as given. -/
def DynTree.setD2Ang (s : DynTree Scalar) (_q : List Scalar) (part_name : String) :
    Option (List Scalar) × DynTree Scalar :=
  if part_name = "" then
    if _q.length ≠ s.NrOfDOFs then (none, s)
    else (some _q, { s with ddq := _q })
  else
    match s.getPart part_name with
    | none => (none, s)
    | some p =>
        if _q.length ≠ p.dofs.length then (none, s)
        else (some _q, { s with ddq := setPartValues s.ddq p.dofs _q })

/-- A vector of size 3 as a `KDL::Vector`. -/
def toVector : List Scalar → Option (KDL.Vector Scalar)
  | [x, y, z] => some ⟨x, y, z⟩
  | _ => none

/-- Modelled from the spec: the body of `DynTree::setInertialMeasure`: true and
the measure stored when the three vectors have size 3, false otherwise. -/
def DynTree.setInertialMeasure (s : DynTree Scalar) (w0 dw0 ddp0 : List Scalar) :
    Bool × DynTree Scalar :=
  match toVector w0, toVector dw0, toVector ddp0 with
  | some w, some dw, some ddp =>
      (true, { s with imu_velocity := ⟨⟨0, 0, 0⟩, w⟩, imu_acceleration := ⟨ddp, dw⟩ })
  | _, _, _ => (false, s)

/-- A vector of size 6, forces (0:2) and moments (3:5), as a `KDL::Wrench`. -/
def toWrench : List Scalar → Option (KDL.Wrench Scalar)
  | [fx, fy, fz, tx, ty, tz] => some ⟨⟨fx, fy, fz⟩, ⟨tx, ty, tz⟩⟩
  | _ => none

/-- A `KDL::Wrench` as a vector of size 6, forces (0:2) and moments (3:5). -/
def ofWrench (w : KDL.Wrench Scalar) : List Scalar :=
  [w.force.x, w.force.y, w.force.z, w.torque.x, w.torque.y, w.torque.z]

/-- Modelled from the spec: the body of `DynTree::setSensorMeasurement`: true
and the wrench stored when the sensor exists and `ftm` has size 6, false
otherwise. -/
def DynTree.setSensorMeasurement (s : DynTree Scalar) (sensor_index : Int) (ftm : List Scalar) :
    Bool × DynTree Scalar :=
  if 0 ≤ sensor_index ∧ sensor_index.toNat < s.measured_wrenches.length then
    match toWrench ftm with
    | some w => (true, { s with measured_wrenches := s.measured_wrenches.set sensor_index.toNat w })
    | none => (false, s)
  else (false, s)

/-- Modelled from the spec: the body of `DynTree::getSensorMeasurement`: the
stored wrench of the sensor as a vector of size 6, `none` for `false`. -/
def DynTree.getSensorMeasurement (s : DynTree Scalar) (sensor_index : Int) :
    Option (List Scalar) :=
  if 0 ≤ sensor_index then (s.measured_wrenches[sensor_index.toNat]?).map ofWrench else none

/-- Modelled from the spec: the body of `DynTree::computePositions`.  The
poses it computes are not part of the state modelled here. -/
def DynTree.computePositions (s : DynTree Scalar) : Bool × DynTree Scalar :=
  (true, s)

/-- Modelled from the spec: the body of `DynTree::kinematicRNEA`.  The
velocities and accelerations it computes are not part of the state modelled
here. -/
def DynTree.kinematicRNEA (s : DynTree Scalar) : Bool × DynTree Scalar :=
  (true, s)

/-- Modelled from the spec: the body of `DynTree::estimateContactForces`.  The
contacts it estimates are not part of the state modelled here; the state
records that they have been estimated. -/
def DynTree.estimateContactForces (s : DynTree Scalar) : Bool × DynTree Scalar :=
  (true, { s with are_contact_estimated := true })

/-- Modelled from the spec: the body of `DynTree::dynamicRNEA`: the torques are
computed, and the sensor measures are replaced by the simulated ones when the
contacts were not estimated. -/
def DynTree.dynamicRNEA (rnea : RNEA Scalar) (s : DynTree Scalar) : Bool × DynTree Scalar :=
  (true, { s with
    torques := rnea.torques s
    measured_wrenches :=
      if s.are_contact_estimated then s.measured_wrenches else rnea.sensor_wrenches s })

end DynTreeMethods

/-- An event in the life of a `DynTree`: a call of a per-cycle setter or of a
compute phase. -/
inductive DynTreeCall (Scalar : Type) where
  | setAng (_q : List Scalar) (part_name : String)
  | setDAng (_q : List Scalar) (part_name : String)
  | setD2Ang (_q : List Scalar) (part_name : String)
  | setInertialMeasure (w0 dw0 ddp0 : List Scalar)
  | setSensorMeasurement (sensor_index : Int) (ftm : List Scalar)
  | computePositions
  | kinematicRNEA
  | estimateContactForces
  | dynamicRNEA

section DynTreeRuns
variable {Scalar : Type} [LinearOrderedCommRing Scalar]

/-- The state after one event.  The result is in `Except Fatal`, the type of a
call that can abort; none of the events modelled here does. -/
def DynTree.call (rnea : RNEA Scalar) (s : DynTree Scalar) :
    DynTreeCall Scalar → Except Fatal (DynTree Scalar)
  | .setAng _q part_name => .ok (s.setAng _q part_name).2
  | .setDAng _q part_name => .ok (s.setDAng _q part_name).2
  | .setD2Ang _q part_name => .ok (s.setD2Ang _q part_name).2
  | .setInertialMeasure w0 dw0 ddp0 => .ok (s.setInertialMeasure w0 dw0 ddp0).2
  | .setSensorMeasurement sensor_index ftm => .ok (s.setSensorMeasurement sensor_index ftm).2
  | .computePositions => .ok s.computePositions.2
  | .kinematicRNEA => .ok s.kinematicRNEA.2
  | .estimateContactForces => .ok s.estimateContactForces.2
  | .dynamicRNEA => .ok (s.dynamicRNEA rnea).2

/-- The state after a sequence of events; a fatal failure ends the sequence. -/
def DynTree.run (rnea : RNEA Scalar) (s : DynTree Scalar) :
    List (DynTreeCall Scalar) → Except Fatal (DynTree Scalar)
  | [] => .ok s
  | c :: cs =>
      match s.call rnea c with
      | .ok s1 => DynTree.run rnea s1 cs
      | .error e => .error e

end DynTreeRuns

/-! ## Concrete objects

Objects with integer coordinates, on which the definitions above evaluate. -/

/-- A frame with a quarter turn about z and origin `(0, 0, 2)`. -/
def exampleFrame : KDL.Frame Int :=
  ⟨⟨0, -1, 0, 1, 0, 0, 0, 0, 1⟩, ⟨0, 0, 2⟩⟩

/-- A graph whose joints all have type `t`; every pose is a shift by `(1, 0, 0)`. -/
def exampleGraph (t : JointType) : TreeGraph Int (KDL.Frame Int) :=
  { adjacentJointType := fun _ _ => t
    pose := fun _ _ _ => ⟨KDL.Rotation.Identity, ⟨1, 0, 0⟩⟩ }

/-- A sensor on a joint of type `t` between parent link 0 and child link 1. -/
def exampleSensor (t : JointType) : FTSensor Int (KDL.Frame Int) :=
  FTSensor.new (exampleGraph t) "ft" exampleFrame 0 1 0

/-- A frame whose nine coefficients double every length; they are not those of
a rotation. -/
def stretchFrame : KDL.Frame Int :=
  ⟨⟨2, 0, 0, 0, 2, 0, 0, 0, 2⟩, ⟨0, 0, 0⟩⟩

/-- A graph whose joints all have type `None` and whose poses are a shift by
`(0, 1, 0)` without rotation, in `double` arithmetic. -/
def shiftGraph : TreeGraph IntDouble (KDL.Frame IntDouble) :=
  { adjacentJointType := fun _ _ => JointType.None
    pose := fun _ _ _ => ⟨KDL.Rotation.Identity, ⟨⟨0⟩, ⟨1⟩, ⟨0⟩⟩⟩ }

/-- A sensor of `shiftGraph` between parent link 0 and child link 1, whose
frame is a shift by `(0, 1, 0)` from the parent link. -/
def shiftSensor : FTSensor IntDouble (KDL.Frame IntDouble) :=
  FTSensor.new shiftGraph "ft" ⟨KDL.Rotation.Identity, ⟨⟨0⟩, ⟨1⟩, ⟨0⟩⟩⟩ 0 1 0

/-- A measured wrench with force `(0, 0, 1)` and torque `(2^53, 0, 0)`. -/
def largeTorqueWrench : KDL.Wrench IntDouble :=
  ⟨⟨⟨0⟩, ⟨0⟩, ⟨1⟩⟩, ⟨⟨9007199254740992⟩, ⟨0⟩, ⟨0⟩⟩⟩

/-- A measured wrench. -/
def exampleWrench : KDL.Wrench Int :=
  ⟨⟨1, 2, 3⟩, ⟨4, 5, 6⟩⟩

/-- A tree with two DOFs, `hip` limited to `[0, 1]` and `knee` limited to
`[-1, 1]`; `hip` is marked as constrained when `c` is true, `knee` always. -/
def exampleTree (c : Bool) : DynTree Int :=
  { link_names := ["base", "thigh", "shin"]
    dof_names := ["hip", "knee"]
    partition := [⟨"leg", [0, 1]⟩]
    NrOfDOFs := 2
    NrOfLinks := 3
    NrOfFTSensors := 1
    q := [0, 0]
    dq := [0, 0]
    ddq := [0, 0]
    imu_velocity := ⟨⟨0, 0, 0⟩, ⟨0, 0, 0⟩⟩
    imu_acceleration := ⟨⟨0, 0, 0⟩, ⟨0, 0, 0⟩⟩
    q_min := [0, -1]
    q_max := [1, 1]
    constrained := [c, true]
    measured_wrenches := [exampleWrench]
    torques := [0, 0]
    are_contact_estimated := false }

/-- A backward sweep that reports the accelerations as torques and leaves the
sensor measures as they are. -/
def exampleRNEA : RNEA Int :=
  { torques := fun s => s.ddq
    sensor_wrenches := fun s => s.measured_wrenches }

end iDynTree

/-! ## `locomotionConstants.h`

The header includes `paramHelp/paramHelp.h` and builds the table
`locomotionParamDescr` from its types `ParamDescription`, `ParamBounds`,
`ParamSize`, its enumerators `PARAM_DATA_FLOAT`, `PARAM_DATA_INT`,
`PARAM_IN_OUT` and its constant `PARAM_BOUND_INF`.  A `double` literal is
embedded as the rational number it denotes; rounding a literal to `double` is
monotone, so the comparisons `≤` between literals are the same in both. -/

namespace paramHelp

/-- Modelled from the spec: the enumerators of the data type of a parameter
that the table uses; the enumeration is declared in paramHelp. -/
inductive ParamDataType where
  | PARAM_DATA_FLOAT
  | PARAM_DATA_INT
  deriving DecidableEq, Repr

/-- Modelled from the spec: the enumerator of the direction of a parameter
that the table uses; the enumeration is declared in paramHelp. -/
inductive ParamIOType where
  | PARAM_IN_OUT
  deriving DecidableEq, Repr

/-- Modelled from the spec: an argument of `ParamBounds(lower, upper)`, a
number or `PARAM_BOUND_INF`, which stands for no limit. -/
inductive ParamBound where
  | value (x : ℚ)
  | PARAM_BOUND_INF
  deriving DecidableEq

/-- Modelled from the spec: the class `ParamBounds` of paramHelp, as the pair
of the arguments of its constructor. -/
structure ParamBounds where
  lowerBound : ParamBound
  upperBound : ParamBound
  deriving DecidableEq

/-- Modelled from the spec: the class `ParamSize` of paramHelp; an `int` given
as a size is a size that is not free. -/
structure ParamSize where
  size : Nat
  freeSize : Bool
  deriving DecidableEq, Repr

/-- Modelled from the spec: the class `ParamDescription` of paramHelp, as the
tuple of the arguments of its constructor; `defaultValue` holds the numbers
the pointer given as default value points to. -/
structure ParamDescription where
  name : String
  id : Int
  type : ParamDataType
  size : ParamSize
  bounds : ParamBounds
  ioType : ParamIOType
  defaultValue : List ℚ
  description : String

/-- Modelled from the spec: a number lies within declared bounds when it is at
least the lower bound and at most the upper bound, `PARAM_BOUND_INF` being no
limit. -/
def ParamBounds.admits (b : ParamBounds) (x : ℚ) : Bool :=
  (match b.lowerBound with
    | ParamBound.value lo => decide (lo ≤ x)
    | ParamBound.PARAM_BOUND_INF => true) &&
  (match b.upperBound with
    | ParamBound.value hi => decide (x ≤ hi)
    | ParamBound.PARAM_BOUND_INF => true)

end paramHelp

namespace locomotion

open paramHelp

/-- The constant `KP_MAX`. -/
def KP_MAX : ℚ := 100.0

/-- The constant `ICUB_DOFS`. -/
def ICUB_DOFS : Nat := 23

/-- The enumeration `LocomotionSupportPhase`. -/
inductive LocomotionSupportPhase where
  | SUPPORT_DOUBLE
  | SUPPORT_LEFT
  | SUPPORT_RIGHT
  deriving DecidableEq, Repr

/-- The value of an enumerator: without initializers the enumerators of a C++
enumeration count 0, 1, 2, ... in the order of their declaration. -/
def LocomotionSupportPhase.value (p : LocomotionSupportPhase) : Int :=
  p.toCtorIdx

/-- The vector `Matrix<T, n, 1>::Constant(v)` of Eigen: `n` entries `v`. -/
def Constant {T : Type} (n : Nat) (v : T) : List T :=
  List.replicate n v

/-- The constant `DEFAULT_KP_COM`. -/
def DEFAULT_KP_COM : List ℚ := Constant 2 1.0

/-- The constant `DEFAULT_KP_FOOT`. -/
def DEFAULT_KP_FOOT : List ℚ := Constant 6 1.0

/-- The constant `DEFAULT_KP_POSTURE`. -/
def DEFAULT_KP_POSTURE : List ℚ := Constant ICUB_DOFS 1.0

/-- The constant `DEFAULT_TT_COM`. -/
def DEFAULT_TT_COM : ℚ := 2.0

/-- The constant `DEFAULT_TT_FOOT`. -/
def DEFAULT_TT_FOOT : ℚ := 2.0

/-- The constant `DEFAULT_TT_POSTURE`. -/
def DEFAULT_TT_POSTURE : ℚ := 2.0

/-- The constant `DEFAULT_ACTIVE_JNTS`. -/
def DEFAULT_ACTIVE_JNTS : List Int := Constant ICUB_DOFS 1

/-- The constant `DEFAULT_SUPPORT_PHASE`. -/
def DEFAULT_SUPPORT_PHASE : Int := LocomotionSupportPhase.SUPPORT_DOUBLE.value

/-- The constant `DEFAULT_PINV_DAMP`. -/
def DEFAULT_PINV_DAMP : ℚ := 1e-4

/-- The enumeration `LocomotionParamId`. -/
inductive LocomotionParamId where
  | PARAM_ID_KP_COM
  | PARAM_ID_KP_FOOT
  | PARAM_ID_KP_POSTURE
  | PARAM_ID_TRAJ_TIME_COM
  | PARAM_ID_TRAJ_TIME_FOOT
  | PARAM_ID_TRAJ_TIME_POSTURE
  | PARAM_ID_ACTIVE_JOINTS
  | PARAM_ID_SUPPORT_PHASE
  | PARAM_ID_PINV_DAMP
  | PARAM_ID_SIZE
  deriving DecidableEq, Repr

/-- The value of an enumerator, its position in the declaration. -/
def LocomotionParamId.value (i : LocomotionParamId) : Int :=
  i.toCtorIdx

/-- The numbers an array of `int` holds, as `defaultValue` stores them. -/
def ofInts (a : List Int) : List ℚ :=
  a.map (fun (n : Int) => (n : ℚ))

/-- The table `locomotionParamDescr`. -/
def locomotionParamDescr : List ParamDescription :=
  [ { name := "kp com", id := LocomotionParamId.PARAM_ID_KP_COM.value,
      type := ParamDataType.PARAM_DATA_FLOAT, size := ⟨2, false⟩,
      bounds := ⟨ParamBound.value 0.0, ParamBound.value KP_MAX⟩,
      ioType := ParamIOType.PARAM_IN_OUT, defaultValue := DEFAULT_KP_COM,
      description := "Proportional gain for the COM position control" },
    { name := "kp foot", id := LocomotionParamId.PARAM_ID_KP_FOOT.value,
      type := ParamDataType.PARAM_DATA_FLOAT, size := ⟨6, false⟩,
      bounds := ⟨ParamBound.value 0.0, ParamBound.value KP_MAX⟩,
      ioType := ParamIOType.PARAM_IN_OUT, defaultValue := DEFAULT_KP_FOOT,
      description := "Proportional gain for the foot pose control" },
    { name := "kp posture", id := LocomotionParamId.PARAM_ID_KP_POSTURE.value,
      type := ParamDataType.PARAM_DATA_FLOAT, size := ⟨ICUB_DOFS, true⟩,
      bounds := ⟨ParamBound.value 0.0, ParamBound.value KP_MAX⟩,
      ioType := ParamIOType.PARAM_IN_OUT, defaultValue := DEFAULT_KP_POSTURE,
      description := "Proportional gain for the joint posture control" },
    { name := "tt com", id := LocomotionParamId.PARAM_ID_TRAJ_TIME_COM.value,
      type := ParamDataType.PARAM_DATA_FLOAT, size := ⟨1, false⟩,
      bounds := ⟨ParamBound.value 0.1, ParamBound.PARAM_BOUND_INF⟩,
      ioType := ParamIOType.PARAM_IN_OUT, defaultValue := [DEFAULT_TT_COM],
      description := "Trajectory time for the COM minimum jerk trajectory generator" },
    { name := "tt foot", id := LocomotionParamId.PARAM_ID_TRAJ_TIME_FOOT.value,
      type := ParamDataType.PARAM_DATA_FLOAT, size := ⟨1, false⟩,
      bounds := ⟨ParamBound.value 0.1, ParamBound.PARAM_BOUND_INF⟩,
      ioType := ParamIOType.PARAM_IN_OUT, defaultValue := [DEFAULT_TT_FOOT],
      description := "Trajectory time for the foot minimum jerk trajectory generator" },
    { name := "tt posture", id := LocomotionParamId.PARAM_ID_TRAJ_TIME_POSTURE.value,
      type := ParamDataType.PARAM_DATA_FLOAT, size := ⟨1, false⟩,
      bounds := ⟨ParamBound.value 0.1, ParamBound.PARAM_BOUND_INF⟩,
      ioType := ParamIOType.PARAM_IN_OUT, defaultValue := [DEFAULT_TT_POSTURE],
      description := "Trajectory time for the posture minimum jerk trajectory generator" },
    { name := "active joints", id := LocomotionParamId.PARAM_ID_ACTIVE_JOINTS.value,
      type := ParamDataType.PARAM_DATA_INT, size := ⟨ICUB_DOFS, false⟩,
      bounds := ⟨ParamBound.value 0, ParamBound.value 1⟩,
      ioType := ParamIOType.PARAM_IN_OUT, defaultValue := ofInts DEFAULT_ACTIVE_JNTS,
      description :=
        "Selection of which joints are used in the control (1: active, 0: inactive)" },
    { name := "support phase", id := LocomotionParamId.PARAM_ID_SUPPORT_PHASE.value,
      type := ParamDataType.PARAM_DATA_INT, size := ⟨1, false⟩,
      bounds := ⟨ParamBound.value 0.0, ParamBound.value 2.0⟩,
      ioType := ParamIOType.PARAM_IN_OUT, defaultValue := ofInts [DEFAULT_SUPPORT_PHASE],
      description := "Foot support phase, 0: double, 1: left foot, 2: right foot" },
    { name := "pinv damp", id := LocomotionParamId.PARAM_ID_PINV_DAMP.value,
      type := ParamDataType.PARAM_DATA_FLOAT, size := ⟨1, false⟩,
      bounds := ⟨ParamBound.value 1e-8, ParamBound.value 1.0⟩,
      ioType := ParamIOType.PARAM_IN_OUT, defaultValue := [DEFAULT_PINV_DAMP],
      description := "Damping factor used in the pseudoinverses" } ]

/-- The entry of a table that carries the parameter id `i`. -/
def entryOf (table : List ParamDescription) (i : LocomotionParamId) : Option ParamDescription :=
  table.find? (fun d => d.id == i.value)

end locomotion

/-! ## Properties of `FTSensor` -/

namespace iDynTree

open KDL (JointType)

section FTSensorProperties
variable {Scalar Frame Wrench : Type}

theorem vectorAt_of_getElem? (measured_wrenches : List Wrench) (sensor_id : Int) (f_s : Wrench)
    (hid : 0 ≤ sensor_id) (hf : measured_wrenches[sensor_id.toNat]? = some f_s) :
    vectorAt measured_wrenches sensor_id = .ok f_s := by
  simp [vectorAt, hid, hf]

/-- C1: queried with the parent link of the sensor, with `sensor_id` a valid
index of the measured wrenches, `getWrenchExcertedOnSubGraph` returns
`H_parent_sensor` applied to `measured_wrenches[sensor_id]` and nothing else. -/
theorem C1_wrench_on_parent [Zero Scalar] [HMul Frame Wrench Wrench]
    (s : FTSensor Scalar Frame) (current_link : Int)
    (measured_wrenches : List Wrench) (f_s : Wrench)
    (hlink : current_link = s.parent) (hid : 0 ≤ s.sensor_id)
    (hf : measured_wrenches[s.sensor_id.toNat]? = some f_s) :
    s.getWrenchExcertedOnSubGraph current_link measured_wrenches
      = .ok (s.H_parent_sensor * f_s) := by
  unfold FTSensor.getWrenchExcertedOnSubGraph
  rw [if_pos hlink, vectorAt_of_getElem? measured_wrenches s.sensor_id f_s hid hf]
  rfl

/-- C1, at a concrete sensor: the measure `exampleWrench` seen from the parent link. -/
theorem C1_wrench_on_parent_witness :
    (exampleSensor JointType.None).getWrenchExcertedOnSubGraph 0 [exampleWrench]
      = .ok (exampleFrame * exampleWrench) :=
  C1_wrench_on_parent (exampleSensor JointType.None) 0 [exampleWrench] exampleWrench
    rfl (by decide) rfl

/-- C2: for a sensor on a zero-DOF joint whose child differs from its parent,
with `sensor_id` a valid index, the wrench for the child link is the wrench for
the parent link transformed by `H_child_parent`, the pose of the parent link
with respect to the child link at joint position 0; both calls return. -/
theorem C2_wrench_on_child [Zero Scalar] [HMul Frame Wrench Wrench]
    (s : FTSensor Scalar Frame) (measured_wrenches : List Wrench) (f_s : Wrench)
    (hjoint : s.tree_graph.adjacentJointType s.child s.parent = JointType.None)
    (hne : s.child ≠ s.parent) (hid : 0 ≤ s.sensor_id)
    (hf : measured_wrenches[s.sensor_id.toNat]? = some f_s) :
    ∃ f_p : Wrench,
      s.getWrenchExcertedOnSubGraph s.parent measured_wrenches = .ok f_p ∧
      s.getWrenchExcertedOnSubGraph s.child measured_wrenches
        = .ok (s.tree_graph.pose s.parent s.child 0 * f_p) := by
  refine ⟨s.H_parent_sensor * f_s, ?_, ?_⟩
  · unfold FTSensor.getWrenchExcertedOnSubGraph
    rw [if_pos rfl, vectorAt_of_getElem? measured_wrenches s.sensor_id f_s hid hf]
    rfl
  · unfold FTSensor.getWrenchExcertedOnSubGraph
    rw [if_neg hne, vectorAt_of_getElem? measured_wrenches s.sensor_id f_s hid hf, hjoint]
    simp [assert]
    rfl

/-- C2, at a concrete sensor on a joint of type `None`. -/
theorem C2_wrench_on_child_witness :
    ∃ f_p : KDL.Wrench Int,
      (exampleSensor JointType.None).getWrenchExcertedOnSubGraph 0 [exampleWrench] = .ok f_p ∧
      (exampleSensor JointType.None).getWrenchExcertedOnSubGraph 1 [exampleWrench]
        = .ok ((exampleGraph JointType.None).pose 0 1 0 * f_p) :=
  C2_wrench_on_child (exampleSensor JointType.None) [exampleWrench] exampleWrench
    rfl (by decide) (by decide) rfl

/-- C3: queried with a link that is neither the parent nor the child of the
sensor, `getWrenchExcertedOnSubGraph` fails an assertion and returns no wrench. -/
theorem C3_other_link_is_fatal [Zero Scalar] [HMul Frame Wrench Wrench]
    (s : FTSensor Scalar Frame) (current_link : Int) (measured_wrenches : List Wrench)
    (hparent : current_link ≠ s.parent) (hchild : current_link ≠ s.child) :
    s.getWrenchExcertedOnSubGraph current_link measured_wrenches = .error Fatal.assertion := by
  unfold FTSensor.getWrenchExcertedOnSubGraph
  rw [if_neg hparent]
  cases hj : (s.tree_graph.adjacentJointType s.child s.parent == JointType.None) <;>
    simp [assert, hchild] <;> rfl

/-- C3, at a concrete sensor: link 2 is neither its parent 0 nor its child 1. -/
theorem C3_other_link_is_fatal_witness :
    (exampleSensor JointType.None).getWrenchExcertedOnSubGraph 2 [exampleWrench]
      = .error Fatal.assertion :=
  C3_other_link_is_fatal (exampleSensor JointType.None) 2 [exampleWrench]
    (by decide) (by decide)

/-- C4 as stated fails: on a joint of type `RotX` the query with the parent
link returns a wrench, no assertion being checked on that path. -/
theorem C4_counterexample :
    (exampleSensor JointType.RotX).tree_graph.adjacentJointType
        (exampleSensor JointType.RotX).child (exampleSensor JointType.RotX).parent
      ≠ JointType.None ∧
    (exampleSensor JointType.RotX).getWrenchExcertedOnSubGraph
        (exampleSensor JointType.RotX).parent [exampleWrench]
      = .ok ⟨⟨-2, 1, 3⟩, ⟨-7, 0, 6⟩⟩ :=
  ⟨by decide, rfl⟩

/-- C4, amended: for a sensor whose joint is not of type `None`,
`getWrenchExcertedOnSubGraph` fails an assertion for every queried link other
than the parent link of the sensor; for the parent link the joint type is not
checked and, `sensor_id` being a valid index, the call returns
`H_parent_sensor` applied to the measure. -/
theorem C4_nonzero_dof_joint [Zero Scalar] [HMul Frame Wrench Wrench]
    (s : FTSensor Scalar Frame) (measured_wrenches : List Wrench)
    (hjoint : s.tree_graph.adjacentJointType s.child s.parent ≠ JointType.None) :
    (∀ current_link : Int, current_link ≠ s.parent →
      s.getWrenchExcertedOnSubGraph current_link measured_wrenches = .error Fatal.assertion) ∧
    (∀ f_s : Wrench, 0 ≤ s.sensor_id → measured_wrenches[s.sensor_id.toNat]? = some f_s →
      s.getWrenchExcertedOnSubGraph s.parent measured_wrenches
        = .ok (s.H_parent_sensor * f_s)) := by
  constructor
  · intro current_link hlink
    unfold FTSensor.getWrenchExcertedOnSubGraph
    rw [if_neg hlink]
    have hb : (s.tree_graph.adjacentJointType s.child s.parent == JointType.None) = false := by
      simpa using hjoint
    rw [hb]
    rfl
  · intro f_s hid hf
    unfold FTSensor.getWrenchExcertedOnSubGraph
    rw [if_pos rfl, vectorAt_of_getElem? measured_wrenches s.sensor_id f_s hid hf]
    rfl

/-- C4, amended, at a concrete sensor on a joint of type `RotX`: the query with
the child link fails, the query with the parent link returns. -/
theorem C4_nonzero_dof_joint_witness :
    (exampleSensor JointType.RotX).getWrenchExcertedOnSubGraph 1 [exampleWrench]
      = .error Fatal.assertion ∧
    (exampleSensor JointType.RotX).getWrenchExcertedOnSubGraph 0 [exampleWrench]
      = .ok (exampleFrame * exampleWrench) :=
  ⟨(C4_nonzero_dof_joint (exampleSensor JointType.RotX) [exampleWrench] (by decide)).1 1
      (by decide),
   (C4_nonzero_dof_joint (exampleSensor JointType.RotX) [exampleWrench] (by decide)).2
      exampleWrench (by decide) rfl⟩

theorem FTSensor.call_state [Zero Scalar] [Mul Frame] [HMul Frame Wrench Wrench]
    (s : FTSensor Scalar Frame) (measured_wrenches : List Wrench) (c : FTSensorCall) :
    (s.call measured_wrenches c).2 = (s, measured_wrenches) := by
  cases c <;> rfl

/-- C5: a sensor built from `(tree_graph, joint name, H_parent_sensor, parent,
child, sensor_id)` answers `getParent`, `getChild` and `getH_parent_sensor`
with the arguments it was built from, and after any sequence of calls of its
methods the object and the vector of measured wrenches are what they were. -/
theorem C5_fields_are_kept [Zero Scalar] [Mul Frame] [HMul Frame Wrench Wrench]
    (_tree_graph : TreeGraph Scalar Frame) (_fixed_joint_name : String)
    (_H_parent_sensor : Frame) (_parent _child _sensor_id : Int)
    (measured_wrenches : List Wrench) (cs : List FTSensorCall) :
    (FTSensor.new _tree_graph _fixed_joint_name _H_parent_sensor _parent _child
        _sensor_id).getParent = _parent ∧
    (FTSensor.new _tree_graph _fixed_joint_name _H_parent_sensor _parent _child
        _sensor_id).getChild = _child ∧
    (FTSensor.new _tree_graph _fixed_joint_name _H_parent_sensor _parent _child
        _sensor_id).getH_parent_sensor = _H_parent_sensor ∧
    (FTSensor.new _tree_graph _fixed_joint_name _H_parent_sensor _parent _child
        _sensor_id).calls measured_wrenches cs
      = (FTSensor.new _tree_graph _fixed_joint_name _H_parent_sensor _parent _child
          _sensor_id, measured_wrenches) := by
  refine ⟨rfl, rfl, rfl, ?_⟩
  generalize FTSensor.new _tree_graph _fixed_joint_name _H_parent_sensor _parent _child
    _sensor_id = s
  induction cs with
  | nil => rfl
  | cons c cs ih =>
    unfold FTSensor.calls
    simp only [FTSensor.call_state]
    exact ih

end FTSensorProperties

end iDynTree

/-! ## Properties of `DynTree` -/

namespace iDynTree

set_option linter.unusedSectionVars false

section DynTreeProperties
variable {Scalar : Type} [LinearOrderedCommRing Scalar]

theorem DynTree.effectiveAng_of_bounded (s : DynTree Scalar) (v : Scalar) (i : Nat)
    (h : ∀ lo hi, s.q_min[i]? = some lo → s.q_max[i]? = some hi → lo ≤ v ∧ v ≤ hi) :
    s.effectiveAng v i = v := by
  unfold DynTree.effectiveAng
  split
  · rename_i lo hi hlo hhi
    obtain ⟨h1, h2⟩ := h lo hi hlo hhi
    rw [min_eq_right h2, max_eq_right h1]
  · rfl

theorem DynTree.effectiveAng_limited (s : DynTree Scalar) (v lo hi : Scalar) (i : Nat)
    (hlo : s.q_min[i]? = some lo) (hhi : s.q_max[i]? = some hi) :
    s.effectiveAng v i = max lo (min hi v) := by
  unfold DynTree.effectiveAng
  rw [hlo, hhi]

theorem clip_idem (lo hi v : Scalar) :
    max lo (min hi (max lo (min hi v))) = max lo (min hi v) := by
  rcases le_or_lt lo hi with hle | hlt
  · have h1 : max lo (min hi v) ≤ hi := max_le hle (min_le_left _ _)
    rw [min_eq_right h1, max_eq_right (le_max_left _ _)]
  · have h2 : ∀ x : Scalar, max lo (min hi x) = lo := fun x =>
      max_eq_left (le_of_lt (lt_of_le_of_lt (min_le_left _ _) hlt))
    rw [h2 v, h2 lo]

theorem DynTree.effectiveAng_idem (s : DynTree Scalar) (v : Scalar) (i : Nat) :
    s.effectiveAng (s.effectiveAng v i) i = s.effectiveAng v i := by
  unfold DynTree.effectiveAng
  cases hlo : s.q_min[i]? with
  | none => rfl
  | some lo =>
    cases hhi : s.q_max[i]? with
    | none => rfl
    | some hi => exact clip_idem lo hi v

/-- No value is a clamp of a position that lies below `q_min` and above `q_max`
at once: where the bounds are not an interval, "clamped to the nearest bound"
asks for two different values. -/
theorem no_clamp_between_inverted_bounds (lo hi v out : Scalar) (h1 : hi < v) (h2 : v < lo) :
    ¬ ((v < lo → out = lo) ∧ (hi < v → out = hi)) := by
  rintro ⟨ha, hb⟩
  have h : lo = hi := (ha h2).symm.trans (hb h1)
  rw [h] at h2
  exact absurd (lt_trans h1 h2) (lt_irrefl _)

theorem DynTree.length_effectiveAngFrom (s : DynTree Scalar) (k : Nat) (vs : List Scalar) :
    (s.effectiveAngFrom k vs).length = vs.length := by
  induction vs generalizing k with
  | nil => rfl
  | cons v vs ih => simp [DynTree.effectiveAngFrom, ih]

theorem DynTree.getElem?_effectiveAngFrom (s : DynTree Scalar) (k j : Nat) (vs : List Scalar) :
    (s.effectiveAngFrom k vs)[j]? = (vs[j]?).map (fun v => s.effectiveAng v (k + j)) := by
  induction vs generalizing k j with
  | nil => rfl
  | cons v vs ih =>
    cases j with
    | zero => simp [DynTree.effectiveAngFrom]
    | succ j =>
      simp only [DynTree.effectiveAngFrom, List.getElem?_cons_succ, ih]
      have hk : k + 1 + j = k + (j + 1) := by omega
      rw [hk]

theorem DynTree.effectiveAngFrom_eq_self (s : DynTree Scalar) (k : Nat) (vs : List Scalar)
    (h : ∀ j v, vs[j]? = some v → s.effectiveAng v (k + j) = v) :
    s.effectiveAngFrom k vs = vs := by
  apply List.ext_getElem?
  intro j
  rw [DynTree.getElem?_effectiveAngFrom]
  cases hv : vs[j]? with
  | none => rfl
  | some v => simp [h j v hv]

theorem DynTree.effectiveAng_with_q (s : DynTree Scalar) (a : List Scalar) (v : Scalar)
    (i : Nat) : DynTree.effectiveAng { s with q := a } v i = s.effectiveAng v i :=
  rfl

theorem DynTree.effectiveAngFrom_with_q (s : DynTree Scalar) (a : List Scalar) (k : Nat)
    (vs : List Scalar) :
    DynTree.effectiveAngFrom { s with q := a } k vs = s.effectiveAngFrom k vs := by
  induction vs generalizing k with
  | nil => rfl
  | cons v vs ih =>
    simp only [DynTree.effectiveAngFrom, ih]
    rfl

/-- C6: for a vector `q` of the configured DOF count, `setAng(q)` succeeds and
`getAng()` then returns the vector `setAng` returned; that vector is `q` itself
when every component is within `[q_min, q_max]`; otherwise a component below
`q_min` is `q_min`, a component above `q_max` is `q_max` (the bounds being an
interval, `q_min ≤ q_max`) and a component within the bounds is itself; and
`setAng` on the returned vector returns it again and leaves the state as it is. -/
theorem C6_setAng_getAng (s : DynTree Scalar) (q : List Scalar)
    (hsize : q.length = s.NrOfDOFs) :
    ∃ out : List Scalar,
      (s.setAng q "").1 = some out ∧
      (s.setAng q "").2.getAng "" = some out ∧
      out.length = q.length ∧
      ((∀ (i : Nat) (v lo hi : Scalar), q[i]? = some v → s.q_min[i]? = some lo →
        s.q_max[i]? = some hi → lo ≤ v ∧ v ≤ hi) → out = q) ∧
      (∀ (i : Nat) (v lo hi : Scalar), q[i]? = some v →
        s.q_min[i]? = some lo → s.q_max[i]? = some hi →
        (v < lo → out[i]? = some lo) ∧ (lo ≤ hi → hi < v → out[i]? = some hi) ∧
        (lo ≤ v → v ≤ hi → out[i]? = some v)) ∧
      (s.setAng q "").2.setAng out "" = (some out, (s.setAng q "").2) := by
  have hset : s.setAng q "" =
      (some (s.effectiveAngFrom 0 q), { s with q := s.effectiveAngFrom 0 q }) := by
    simp [DynTree.setAng, hsize]
  have hget : ∀ i v, q[i]? = some v →
      (s.effectiveAngFrom 0 q)[i]? = some (s.effectiveAng v i) := by
    intro i v hv
    rw [DynTree.getElem?_effectiveAngFrom, hv]
    simp
  refine ⟨s.effectiveAngFrom 0 q, ?_, ?_, ?_, ?_, ?_, ?_⟩
  · rw [hset]
  · rw [hset]
    rfl
  · exact DynTree.length_effectiveAngFrom s 0 q
  · intro hin
    apply DynTree.effectiveAngFrom_eq_self
    intro j v hv
    rw [Nat.zero_add]
    exact DynTree.effectiveAng_of_bounded s v j (fun lo hi hlo hhi => hin j v lo hi hv hlo hhi)
  · intro i v lo hi hv hlo hhi
    rw [hget i v hv, DynTree.effectiveAng_limited s v lo hi i hlo hhi]
    refine ⟨?_, ?_, ?_⟩
    · intro h
      rw [max_eq_left (le_of_lt (lt_of_le_of_lt (min_le_right _ _) h))]
    · intro hle h
      rw [min_eq_left (le_of_lt h), max_eq_right hle]
    · intro h1 h2
      rw [min_eq_right h2, max_eq_right h1]
  · rw [hset]
    have hlen : (s.effectiveAngFrom 0 q).length = s.NrOfDOFs := by
      rw [DynTree.length_effectiveAngFrom, hsize]
    have hidem : s.effectiveAngFrom 0 (s.effectiveAngFrom 0 q) = s.effectiveAngFrom 0 q := by
      apply DynTree.effectiveAngFrom_eq_self
      intro j w hw
      rw [DynTree.getElem?_effectiveAngFrom] at hw
      cases hv : q[j]? with
      | none => rw [hv] at hw; cases hw
      | some v =>
        rw [hv] at hw
        simp only [Option.map_some', Option.some.injEq] at hw
        rw [← hw]
        exact DynTree.effectiveAng_idem s v (0 + j)
    simp only [DynTree.setAng, if_true, hlen, ne_eq, not_true_eq_false, if_false,
      DynTree.effectiveAngFrom_with_q, hidem]

/-- C6, at a concrete tree: `hip` above its bounds `[0, 1]` and `knee` below its
bounds `[-1, 1]` are both clipped, and setting the result again changes nothing. -/
theorem C6_setAng_getAng_witness :
    ((exampleTree true).setAng [5, -7] "").1 = some [1, -1] ∧
    ((exampleTree true).setAng [5, -7] "").2.getAng "" = some [1, -1] ∧
    ((exampleTree true).setAng [5, -7] "").2.setAng [1, -1] ""
      = (some [1, -1], ((exampleTree true).setAng [5, -7] "").2) ∧
    ∃ out : List Int,
      ((exampleTree true).setAng [1, 0] "").1 = some out ∧
      ((exampleTree true).setAng [1, 0] "").2.getAng "" = some out ∧
      out.length = [(1 : Int), 0].length ∧
      ((∀ (i : Nat) (v lo hi : Int), [(1 : Int), 0][i]? = some v →
        (exampleTree true).q_min[i]? = some lo →
        (exampleTree true).q_max[i]? = some hi → lo ≤ v ∧ v ≤ hi) → out = [1, 0]) ∧
      (∀ (i : Nat) (v lo hi : Int), [(1 : Int), 0][i]? = some v →
        (exampleTree true).q_min[i]? = some lo → (exampleTree true).q_max[i]? = some hi →
        (v < lo → out[i]? = some lo) ∧ (lo ≤ hi → hi < v → out[i]? = some hi) ∧
        (lo ≤ v → v ≤ hi → out[i]? = some v)) ∧
      ((exampleTree true).setAng [1, 0] "").2.setAng out ""
        = (some out, ((exampleTree true).setAng [1, 0] "").2) :=
  ⟨rfl, rfl, rfl, C6_setAng_getAng (exampleTree true) [1, 0] rfl⟩

theorem DynTree.setAngPart_state (s : DynTree Scalar) (dofs : List Nat) (vs : List Scalar) :
    (s.setAngPart dofs vs).2 = { s with q := (s.setAngPart dofs vs).2.q } := by
  induction dofs generalizing s vs with
  | nil => rfl
  | cons i dofs ih =>
    cases vs with
    | nil => rfl
    | cons v vs =>
      simp only [DynTree.setAngPart]
      rw [ih (s.setAngAt v i).2 vs]
      rfl

theorem DynTree.setAng_state (s : DynTree Scalar) (_q : List Scalar) (part_name : String) :
    (s.setAng _q part_name).2 = { s with q := (s.setAng _q part_name).2.q } := by
  unfold DynTree.setAng
  split_ifs
  · rfl
  · rfl
  · split
    · rfl
    · split_ifs
      · rfl
      · exact DynTree.setAngPart_state s _ _

theorem DynTree.setDAng_state (s : DynTree Scalar) (_q : List Scalar) (part_name : String) :
    (s.setDAng _q part_name).2 = { s with dq := (s.setDAng _q part_name).2.dq } := by
  unfold DynTree.setDAng
  split_ifs
  · rfl
  · rfl
  · split
    · rfl
    · split_ifs <;> rfl

theorem DynTree.setD2Ang_state (s : DynTree Scalar) (_q : List Scalar) (part_name : String) :
    (s.setD2Ang _q part_name).2 = { s with ddq := (s.setD2Ang _q part_name).2.ddq } := by
  unfold DynTree.setD2Ang
  split_ifs
  · rfl
  · rfl
  · split
    · rfl
    · split_ifs <;> rfl

theorem DynTree.setInertialMeasure_state (s : DynTree Scalar) (w0 dw0 ddp0 : List Scalar) :
    (s.setInertialMeasure w0 dw0 ddp0).2 =
      { s with
        imu_velocity := (s.setInertialMeasure w0 dw0 ddp0).2.imu_velocity
        imu_acceleration := (s.setInertialMeasure w0 dw0 ddp0).2.imu_acceleration } := by
  unfold DynTree.setInertialMeasure
  split <;> rfl

theorem DynTree.setSensorMeasurement_state (s : DynTree Scalar) (j : Int) (ftm : List Scalar) :
    (s.setSensorMeasurement j ftm).2 =
      { s with measured_wrenches := (s.setSensorMeasurement j ftm).2.measured_wrenches } := by
  unfold DynTree.setSensorMeasurement
  split_ifs
  · split <;> rfl
  · rfl

theorem toWrench_of_length (ftm : List Scalar) (h : ftm.length = 6) :
    ∃ w : KDL.Wrench Scalar, toWrench ftm = some w ∧ ofWrench w = ftm := by
  match ftm, h with
  | [fx, fy, fz, tx, ty, tz], _ => exact ⟨⟨⟨fx, fy, fz⟩, ⟨tx, ty, tz⟩⟩, rfl, rfl⟩

theorem toWrench_of_length_ne (ftm : List Scalar) (h : ftm.length ≠ 6) :
    toWrench ftm = none := by
  unfold toWrench
  split
  · exact absurd rfl h
  · rfl

theorem toVector_of_length_ne (a : List Scalar) (h : a.length ≠ 3) : toVector a = none := by
  unfold toVector
  split
  · exact absurd rfl h
  · rfl

theorem DynTree.call_measured (rnea : RNEA Scalar) (s : DynTree Scalar) (i : Int)
    (c : DynTreeCall Scalar) (hi : 0 ≤ i) (hdyn : c ≠ DynTreeCall.dynamicRNEA)
    (hset : ∀ ftm, c ≠ DynTreeCall.setSensorMeasurement i ftm) :
    ∃ s1, s.call rnea c = .ok s1 ∧
      s1.measured_wrenches[i.toNat]? = s.measured_wrenches[i.toNat]? := by
  cases c with
  | setAng _q part_name =>
    refine ⟨_, rfl, ?_⟩
    rw [DynTree.setAng_state]
  | setDAng _q part_name =>
    refine ⟨_, rfl, ?_⟩
    rw [DynTree.setDAng_state]
  | setD2Ang _q part_name =>
    refine ⟨_, rfl, ?_⟩
    rw [DynTree.setD2Ang_state]
  | setInertialMeasure w0 dw0 ddp0 =>
    refine ⟨_, rfl, ?_⟩
    rw [DynTree.setInertialMeasure_state]
  | setSensorMeasurement j ftm =>
    refine ⟨_, rfl, ?_⟩
    have hji : j ≠ i := fun h => hset ftm (by rw [h])
    unfold DynTree.setSensorMeasurement
    split_ifs with hj
    · split
      · have hne : j.toNat ≠ i.toNat := by omega
        simp only [List.getElem?_set_ne hne]
      · rfl
    · rfl
  | computePositions => exact ⟨_, rfl, rfl⟩
  | kinematicRNEA => exact ⟨_, rfl, rfl⟩
  | estimateContactForces => exact ⟨_, rfl, rfl⟩
  | dynamicRNEA => exact absurd rfl hdyn

/-- C7: for a valid sensor index and a vector `ftm` of size 6,
`setSensorMeasurement(i, ftm)` succeeds and `getSensorMeasurement(i)` then
returns `ftm`, component for component, also after any events in between that
are neither `dynamicRNEA` nor another `setSensorMeasurement` on sensor `i`. -/
theorem C7_sensor_measurement_roundtrip (rnea : RNEA Scalar) (s : DynTree Scalar)
    (sensor_index : Int) (ftm : List Scalar) (cs : List (DynTreeCall Scalar))
    (hidx : 0 ≤ sensor_index ∧ sensor_index.toNat < s.measured_wrenches.length)
    (hsize : ftm.length = 6)
    (hdyn : DynTreeCall.dynamicRNEA ∉ cs)
    (hset : ∀ w, DynTreeCall.setSensorMeasurement sensor_index w ∉ cs) :
    (s.setSensorMeasurement sensor_index ftm).1 = true ∧
    (s.setSensorMeasurement sensor_index ftm).2.getSensorMeasurement sensor_index = some ftm ∧
    ∃ s1, DynTree.run rnea (s.setSensorMeasurement sensor_index ftm).2 cs = .ok s1 ∧
      s1.getSensorMeasurement sensor_index = some ftm := by
  obtain ⟨w, hw, hback⟩ := toWrench_of_length ftm hsize
  have hstep : s.setSensorMeasurement sensor_index ftm =
      (true, { s with measured_wrenches := s.measured_wrenches.set sensor_index.toNat w }) := by
    simp [DynTree.setSensorMeasurement, hidx, hw]
  have hget : (s.setSensorMeasurement sensor_index ftm).2.getSensorMeasurement sensor_index
      = some ftm := by
    rw [hstep]
    simp [DynTree.getSensorMeasurement, hidx, hback]
  refine ⟨by rw [hstep], hget, ?_⟩
  generalize (s.setSensorMeasurement sensor_index ftm).2 = t at hget
  induction cs generalizing t with
  | nil => exact ⟨t, rfl, hget⟩
  | cons c cs ih =>
    have hc1 : c ≠ DynTreeCall.dynamicRNEA := fun h => hdyn (by simp [h])
    have hc2 : ∀ a, c ≠ DynTreeCall.setSensorMeasurement sensor_index a :=
      fun a h => hset a (by simp [h])
    obtain ⟨t1, ht1, hm⟩ := DynTree.call_measured rnea t sensor_index c hidx.1 hc1 hc2
    have hget1 : t1.getSensorMeasurement sensor_index = some ftm := by
      unfold DynTree.getSensorMeasurement at hget ⊢
      rw [hm]
      exact hget
    obtain ⟨s1, hs1, hs1get⟩ := ih (fun h => hdyn (List.mem_cons_of_mem _ h))
      (fun a h => hset a (List.mem_cons_of_mem _ h)) t1 hget1
    refine ⟨s1, ?_, hs1get⟩
    simp only [DynTree.run, ht1]
    exact hs1

/-- C7, at a concrete tree: a measure set on sensor 0 is read back after the
positions and the kinematic phase have been computed. -/
theorem C7_sensor_measurement_roundtrip_witness :
    ((exampleTree true).setSensorMeasurement 0 [1, 2, 3, 4, 5, 6]).1 = true ∧
    ((exampleTree true).setSensorMeasurement 0 [1, 2, 3, 4, 5, 6]).2.getSensorMeasurement 0
      = some [1, 2, 3, 4, 5, 6] ∧
    ∃ s1, DynTree.run exampleRNEA ((exampleTree true).setSensorMeasurement 0 [1, 2, 3, 4, 5, 6]).2
        [DynTreeCall.setAng [1, 0] "", DynTreeCall.computePositions, DynTreeCall.kinematicRNEA]
        = .ok s1 ∧
      s1.getSensorMeasurement 0 = some [1, 2, 3, 4, 5, 6] :=
  C7_sensor_measurement_roundtrip exampleRNEA (exampleTree true) 0 [1, 2, 3, 4, 5, 6]
    [DynTreeCall.setAng [1, 0] "", DynTreeCall.computePositions, DynTreeCall.kinematicRNEA]
    (by decide) rfl (by simp) (by simp)

theorem indexOfName_absent (names : List String) (name : String) (h : name ∉ names) :
    indexOfName names name = -1 := by
  unfold indexOfName
  rw [if_neg]
  rw [List.indexOf_lt_length]
  exact h

theorem indexOfName_present (names : List String) (name : String) (h : name ∈ names) :
    0 ≤ indexOfName names name ∧ indexOfName names name < (names.length : Int) ∧
    names[(indexOfName names name).toNat]? = some name := by
  have hlt : names.indexOf name < names.length := List.indexOf_lt_length.mpr h
  unfold indexOfName
  rw [if_pos hlt]
  refine ⟨Int.ofNat_nonneg _, Int.ofNat_lt.mpr hlt, ?_⟩
  rw [Int.toNat_ofNat, List.getElem?_eq_getElem hlt, List.getElem_indexOf hlt]

/-- C8: in a valid topology, `getLinkIndex(name)` is -1 when no link has the
name and otherwise the index, in `0..getNrOfLinks()-1`, of a link with that
name; `getDOFIndex(name)` is -1 when no DOF has the name and otherwise the
index, in `0..getNrOfDOFs()-1`, of a DOF with that name.  Both are total. -/
theorem C8_index_of_name (s : DynTree Scalar) (name : String) (hvalid : s.valid) :
    (name ∉ s.link_names → s.getLinkIndex name = -1) ∧
    (name ∈ s.link_names →
      0 ≤ s.getLinkIndex name ∧ s.getLinkIndex name < s.getNrOfLinks ∧
      s.link_names[(s.getLinkIndex name).toNat]? = some name) ∧
    (name ∉ s.dof_names → s.getDOFIndex name = -1) ∧
    (name ∈ s.dof_names →
      0 ≤ s.getDOFIndex name ∧ s.getDOFIndex name < s.getNrOfDOFs ∧
      s.dof_names[(s.getDOFIndex name).toNat]? = some name) := by
  obtain ⟨hlinks, hdofs, _⟩ := hvalid
  refine ⟨indexOfName_absent _ _, ?_, indexOfName_absent _ _, ?_⟩
  · intro h
    have := indexOfName_present s.link_names name h
    simpa [DynTree.getLinkIndex, DynTree.getNrOfLinks, hlinks] using this
  · intro h
    have := indexOfName_present s.dof_names name h
    simpa [DynTree.getDOFIndex, DynTree.getNrOfDOFs, hdofs] using this

/-- C8, at a concrete tree: `arm` names neither a link nor a DOF, `shin` is
link 2 of 3 and `knee` is DOF 1 of 2. -/
theorem C8_index_of_name_witness :
    (exampleTree true).valid ∧
    (exampleTree true).getLinkIndex "arm" = -1 ∧
    (0 ≤ (exampleTree true).getLinkIndex "shin" ∧
      (exampleTree true).getLinkIndex "shin" < (exampleTree true).getNrOfLinks ∧
      (exampleTree true).link_names[((exampleTree true).getLinkIndex "shin").toNat]?
        = some "shin") ∧
    (exampleTree true).getDOFIndex "arm" = -1 ∧
    (0 ≤ (exampleTree true).getDOFIndex "knee" ∧
      (exampleTree true).getDOFIndex "knee" < (exampleTree true).getNrOfDOFs ∧
      (exampleTree true).dof_names[((exampleTree true).getDOFIndex "knee").toNat]?
        = some "knee") :=
  ⟨⟨rfl, rfl, rfl, rfl, rfl⟩,
   (C8_index_of_name (exampleTree true) "arm" ⟨rfl, rfl, rfl, rfl, rfl⟩).1 (by decide),
   (C8_index_of_name (exampleTree true) "shin" ⟨rfl, rfl, rfl, rfl, rfl⟩).2.1 (by decide),
   (C8_index_of_name (exampleTree true) "arm" ⟨rfl, rfl, rfl, rfl, rfl⟩).2.2.1 (by decide),
   (C8_index_of_name (exampleTree true) "knee" ⟨rfl, rfl, rfl, rfl, rfl⟩).2.2.2 (by decide)⟩

/-- C9: a per-cycle setter called with a vector of the wrong size (not the DOF
count, not the size of the named part, not 3 for an inertial vector, not 6 for
a sensor measure), with a part that does not exist, or with a sensor index out
of range, reports failure and returns the state it was called on. -/
theorem C9_setters_reject_mismatch (s : DynTree Scalar) :
    (∀ _q : List Scalar, _q.length ≠ s.NrOfDOFs →
      s.setAng _q "" = (none, s) ∧ s.setDAng _q "" = (none, s) ∧
      s.setD2Ang _q "" = (none, s)) ∧
    (∀ (_q : List Scalar) (part_name : String) (p : Part), part_name ≠ "" →
      s.getPart part_name = some p → _q.length ≠ p.dofs.length →
      s.setAng _q part_name = (none, s) ∧ s.setDAng _q part_name = (none, s) ∧
      s.setD2Ang _q part_name = (none, s)) ∧
    (∀ (_q : List Scalar) (part_name : String), part_name ≠ "" →
      s.getPart part_name = none →
      s.setAng _q part_name = (none, s) ∧ s.setDAng _q part_name = (none, s) ∧
      s.setD2Ang _q part_name = (none, s)) ∧
    (∀ w0 dw0 ddp0 : List Scalar, w0.length ≠ 3 ∨ dw0.length ≠ 3 ∨ ddp0.length ≠ 3 →
      s.setInertialMeasure w0 dw0 ddp0 = (false, s)) ∧
    (∀ (sensor_index : Int) (ftm : List Scalar),
      ftm.length ≠ 6 ∨ sensor_index < 0 ∨ (s.measured_wrenches.length : Int) ≤ sensor_index →
      s.setSensorMeasurement sensor_index ftm = (false, s)) := by
  refine ⟨?_, ?_, ?_, ?_, ?_⟩
  · intro _q h
    simp [DynTree.setAng, DynTree.setDAng, DynTree.setD2Ang, h]
  · intro _q part_name p hname hp h
    simp [DynTree.setAng, DynTree.setDAng, DynTree.setD2Ang, hname, hp, h]
  · intro _q part_name hname hp
    simp [DynTree.setAng, DynTree.setDAng, DynTree.setD2Ang, hname, hp]
  · intro w0 dw0 ddp0 h
    unfold DynTree.setInertialMeasure
    rcases h with h | h | h
    · rw [toVector_of_length_ne w0 h]
    · rw [toVector_of_length_ne dw0 h]
      split <;> first | rfl | simp_all
    · rw [toVector_of_length_ne ddp0 h]
      split <;> first | rfl | simp_all
  · intro sensor_index ftm h
    unfold DynTree.setSensorMeasurement
    rcases h with h | h | h
    · rw [toWrench_of_length_ne ftm h]
      split_ifs <;> rfl
    · rw [if_neg (by omega)]
    · rw [if_neg (by omega)]

/-- C9, at a concrete tree with 2 DOFs, a part `leg` of 2 DOFs and 1 sensor. -/
theorem C9_setters_reject_mismatch_witness :
    (exampleTree true).setAng [1, 2, 3] "" = (none, exampleTree true) ∧
    (exampleTree true).setDAng [1] "leg" = (none, exampleTree true) ∧
    (exampleTree true).setD2Ang [1, 2] "arm" = (none, exampleTree true) ∧
    (exampleTree true).setInertialMeasure [1, 2, 3] [1, 2] [1, 2, 3]
      = (false, exampleTree true) ∧
    (exampleTree true).setSensorMeasurement 1 [1, 2, 3, 4, 5, 6] = (false, exampleTree true) ∧
    (exampleTree true).setSensorMeasurement 0 [1, 2, 3, 4, 5] = (false, exampleTree true) :=
  ⟨((C9_setters_reject_mismatch (exampleTree true)).1 [1, 2, 3] (by decide)).1,
   ((C9_setters_reject_mismatch (exampleTree true)).2.1 [1] "leg" ⟨"leg", [0, 1]⟩
      (by decide) rfl (by decide)).2.1,
   ((C9_setters_reject_mismatch (exampleTree true)).2.2.1 [1, 2] "arm"
      (by decide) rfl).2.2,
   (C9_setters_reject_mismatch (exampleTree true)).2.2.2.1 [1, 2, 3] [1, 2] [1, 2, 3]
      (by decide),
   (C9_setters_reject_mismatch (exampleTree true)).2.2.2.2 1 [1, 2, 3, 4, 5, 6] (by decide),
   (C9_setters_reject_mismatch (exampleTree true)).2.2.2.2 0 [1, 2, 3, 4, 5] (by decide)⟩

end DynTreeProperties

end iDynTree

/-! ## Properties of `locomotionConstants.h` -/

namespace locomotion

open paramHelp

theorem admits_zero_two (n : Int) :
    ParamBounds.admits ⟨ParamBound.value 0.0, ParamBound.value 2.0⟩ (n : ℚ) = true
      ↔ n = 0 ∨ n = 1 ∨ n = 2 := by
  simp only [ParamBounds.admits, Bool.and_eq_true, decide_eq_true_eq]
  norm_num
  constructor
  · rintro ⟨h0, h2⟩
    have h0' : (0 : Int) ≤ n := by exact_mod_cast h0
    have h2' : n ≤ 2 := by exact_mod_cast h2
    omega
  · rintro (h | h | h) <;> subst h <;> norm_num

/-- C12: the enumerators of `LocomotionSupportPhase` have the values
`SUPPORT_DOUBLE = 0`, `SUPPORT_LEFT = 1`, `SUPPORT_RIGHT = 2`; the entry of
`locomotionParamDescr` for the support phase is an integer parameter whose
bounds admit exactly the integers that are the value of an enumerator; and the
default support phase, which that entry carries, is `SUPPORT_DOUBLE`. -/
theorem C12_support_phase_encoding :
    LocomotionSupportPhase.SUPPORT_DOUBLE.value = 0 ∧
    LocomotionSupportPhase.SUPPORT_LEFT.value = 1 ∧
    LocomotionSupportPhase.SUPPORT_RIGHT.value = 2 ∧
    (∃ d : ParamDescription,
      entryOf locomotionParamDescr LocomotionParamId.PARAM_ID_SUPPORT_PHASE = some d ∧
      d.name = "support phase" ∧ d.type = ParamDataType.PARAM_DATA_INT ∧
      d.defaultValue = [(DEFAULT_SUPPORT_PHASE : ℚ)] ∧
      ∀ n : Int, d.bounds.admits (n : ℚ) = true ↔ ∃ p : LocomotionSupportPhase, p.value = n) ∧
    DEFAULT_SUPPORT_PHASE = LocomotionSupportPhase.SUPPORT_DOUBLE.value := by
  refine ⟨rfl, rfl, rfl, ⟨_, rfl, rfl, rfl, rfl, ?_⟩, rfl⟩
  intro n
  rw [admits_zero_two]
  constructor
  · rintro (h | h | h)
    · exact ⟨LocomotionSupportPhase.SUPPORT_DOUBLE, h.symm⟩
    · exact ⟨LocomotionSupportPhase.SUPPORT_LEFT, h.symm⟩
    · exact ⟨LocomotionSupportPhase.SUPPORT_RIGHT, h.symm⟩
  · rintro ⟨p, hp⟩
    cases p
    · exact Or.inl hp.symm
    · exact Or.inr (Or.inl hp.symm)
    · exact Or.inr (Or.inr hp.symm)

theorem mem_Constant {T : Type} (n : Nat) (v x : T) (h : x ∈ Constant n v) : x = v :=
  (List.mem_replicate.mp h).2

theorem mem_ofInts (a : List Int) (x : ℚ) (h : x ∈ ofInts a) : ∃ n ∈ a, (n : ℚ) = x := by
  unfold ofInts at h
  exact List.mem_map.mp h

/-- C15: for every entry of `locomotionParamDescr`, every component of the
default value lies within the bounds of the entry, `PARAM_BOUND_INF` being no
limit, and the default value has as many components as the size of the entry;
in particular the gains 1.0 lie in `[0, KP_MAX]`, the trajectory times 2.0 are
at least 0.1, every active-joint default is in `[0, 1]`, the default support
phase is in `[0, 2]` and the damping `1e-4` lies in `[1e-8, 1]`. -/
theorem C15_defaults_within_bounds :
    (∀ d ∈ locomotionParamDescr,
      d.defaultValue.length = d.size.size ∧ ∀ x ∈ d.defaultValue, d.bounds.admits x = true) ∧
    (∀ x ∈ DEFAULT_KP_COM ++ DEFAULT_KP_FOOT ++ DEFAULT_KP_POSTURE, 0 ≤ x ∧ x ≤ KP_MAX) ∧
    (0.1 ≤ DEFAULT_TT_COM ∧ 0.1 ≤ DEFAULT_TT_FOOT ∧ 0.1 ≤ DEFAULT_TT_POSTURE) ∧
    (∀ x ∈ DEFAULT_ACTIVE_JNTS, 0 ≤ x ∧ x ≤ 1) ∧
    (0 ≤ DEFAULT_SUPPORT_PHASE ∧ DEFAULT_SUPPORT_PHASE ≤ 2) ∧
    (1e-8 ≤ DEFAULT_PINV_DAMP ∧ DEFAULT_PINV_DAMP ≤ 1) := by
  refine ⟨?_, ?_, ?_, ?_, ?_, ?_⟩
  · intro d hd
    simp only [locomotionParamDescr, List.mem_cons, List.mem_singleton, List.not_mem_nil,
      or_false] at hd
    rcases hd with rfl | rfl | rfl | rfl | rfl | rfl | rfl | rfl | rfl
    · refine ⟨rfl, fun x hx => ?_⟩
      rw [mem_Constant _ _ _ hx]
      simp only [ParamBounds.admits, KP_MAX, Bool.and_eq_true, decide_eq_true_eq]
      norm_num
    · refine ⟨rfl, fun x hx => ?_⟩
      rw [mem_Constant _ _ _ hx]
      simp only [ParamBounds.admits, KP_MAX, Bool.and_eq_true, decide_eq_true_eq]
      norm_num
    · refine ⟨rfl, fun x hx => ?_⟩
      rw [mem_Constant _ _ _ hx]
      simp only [ParamBounds.admits, KP_MAX, Bool.and_eq_true, decide_eq_true_eq]
      norm_num
    · refine ⟨rfl, fun x hx => ?_⟩
      rw [List.mem_singleton.mp hx]
      simp only [ParamBounds.admits, DEFAULT_TT_COM, Bool.and_eq_true, decide_eq_true_eq]
      norm_num
    · refine ⟨rfl, fun x hx => ?_⟩
      rw [List.mem_singleton.mp hx]
      simp only [ParamBounds.admits, DEFAULT_TT_FOOT, Bool.and_eq_true, decide_eq_true_eq]
      norm_num
    · refine ⟨rfl, fun x hx => ?_⟩
      rw [List.mem_singleton.mp hx]
      simp only [ParamBounds.admits, DEFAULT_TT_POSTURE, Bool.and_eq_true, decide_eq_true_eq]
      norm_num
    · refine ⟨rfl, fun x hx => ?_⟩
      obtain ⟨n, hn, rfl⟩ := mem_ofInts _ _ hx
      rw [mem_Constant _ _ _ hn]
      simp only [ParamBounds.admits, Bool.and_eq_true, decide_eq_true_eq]
      norm_num
    · refine ⟨rfl, fun x hx => ?_⟩
      obtain ⟨n, hn, rfl⟩ := mem_ofInts _ _ hx
      rw [List.mem_singleton.mp hn]
      simp only [ParamBounds.admits, DEFAULT_SUPPORT_PHASE, LocomotionSupportPhase.value,
        Bool.and_eq_true, decide_eq_true_eq]
      norm_num
    · refine ⟨rfl, fun x hx => ?_⟩
      rw [List.mem_singleton.mp hx]
      simp only [ParamBounds.admits, DEFAULT_PINV_DAMP, Bool.and_eq_true, decide_eq_true_eq]
      norm_num
  · intro x hx
    simp only [List.mem_append] at hx
    have hx1 : x = 1.0 := by
      rcases hx with (h | h) | h <;> exact mem_Constant _ _ _ h
    rw [hx1]
    simp only [KP_MAX]
    norm_num
  · simp only [DEFAULT_TT_COM, DEFAULT_TT_FOOT, DEFAULT_TT_POSTURE]
    norm_num
  · intro x hx
    rw [mem_Constant _ _ _ hx]
    decide
  · decide
  · simp only [DEFAULT_PINV_DAMP]
    norm_num

/-- C15, at the entry for the damping of the pseudoinverses and its default. -/
theorem C15_defaults_within_bounds_witness :
    ParamBounds.admits ⟨ParamBound.value 1e-8, ParamBound.value 1.0⟩ DEFAULT_PINV_DAMP = true ∧
    (0 : ℚ) ≤ 1.0 ∧ (1.0 : ℚ) ≤ KP_MAX ∧ (0 : Int) ≤ 1 ∧ (1 : Int) ≤ 1 :=
  ⟨(C15_defaults_within_bounds.1
      { name := "pinv damp", id := LocomotionParamId.PARAM_ID_PINV_DAMP.value,
        type := ParamDataType.PARAM_DATA_FLOAT, size := ⟨1, false⟩,
        bounds := ⟨ParamBound.value 1e-8, ParamBound.value 1.0⟩,
        ioType := ParamIOType.PARAM_IN_OUT, defaultValue := [DEFAULT_PINV_DAMP],
        description := "Damping factor used in the pseudoinverses" }
      (by simp [locomotionParamDescr])).2 DEFAULT_PINV_DAMP (by simp),
   (C15_defaults_within_bounds.2.1 1.0 (by simp [DEFAULT_KP_COM, Constant])).1,
   (C15_defaults_within_bounds.2.1 1.0 (by simp [DEFAULT_KP_COM, Constant])).2,
   (C15_defaults_within_bounds.2.2.2.1 1 (by simp [DEFAULT_ACTIVE_JNTS, Constant, ICUB_DOFS])).1,
   (C15_defaults_within_bounds.2.2.2.1 1 (by simp [DEFAULT_ACTIVE_JNTS, Constant, ICUB_DOFS])).2⟩

/-- C16: `locomotionParamDescr` has `PARAM_ID_SIZE` = 9 entries, the entry at
position `k` carries the id of value `k`, every parameter id below
`PARAM_ID_SIZE` is the id of exactly one entry, and no two entries share an id
or a name. -/
theorem C16_table_indexed_by_id :
    LocomotionParamId.PARAM_ID_SIZE.value = 9 ∧
    (locomotionParamDescr.length : Int) = LocomotionParamId.PARAM_ID_SIZE.value ∧
    locomotionParamDescr.map (fun d => d.id) = (List.range 9).map (fun k => (k : Int)) ∧
    (∀ i : LocomotionParamId, i.value < LocomotionParamId.PARAM_ID_SIZE.value →
      (locomotionParamDescr.filter (fun d => d.id == i.value)).length = 1 ∧
      (locomotionParamDescr[i.value.toNat]?).map (fun d => d.id) = some i.value) ∧
    (locomotionParamDescr.map (fun d => d.id)).Nodup ∧
    (locomotionParamDescr.map (fun d => d.name)).Nodup := by
  refine ⟨rfl, rfl, by decide, ?_, by decide, by decide⟩
  intro i hi
  cases i <;> first | exact ⟨rfl, rfl⟩ | exact absurd hi (by decide)

/-- C16, at the parameter id `PARAM_ID_ACTIVE_JOINTS`, of value 6. -/
theorem C16_table_indexed_by_id_witness :
    (locomotionParamDescr.filter
      (fun d => d.id == LocomotionParamId.PARAM_ID_ACTIVE_JOINTS.value)).length = 1 ∧
    (locomotionParamDescr[6]?).map (fun d => d.name) = some "active joints" ∧
    (locomotionParamDescr[LocomotionParamId.PARAM_ID_ACTIVE_JOINTS.value.toNat]?).map
      (fun d => d.id) = some LocomotionParamId.PARAM_ID_ACTIVE_JOINTS.value :=
  ⟨(C16_table_indexed_by_id.2.2.2.1 LocomotionParamId.PARAM_ID_ACTIVE_JOINTS (by decide)).1,
   rfl,
   (C16_table_indexed_by_id.2.2.2.1 LocomotionParamId.PARAM_ID_ACTIVE_JOINTS (by decide)).2⟩

end locomotion

/-! ## Properties of `FTSensor` over the frames of KDL -/

namespace KDL

section RotationAlgebra
variable {R : Type} [CommRing R]

theorem Rotation.eq_cofactor (m : Rotation R) (hrot : m.IsRotation) :
    m.xx = m.yy * m.zz - m.yz * m.zy ∧
    m.xy = m.yz * m.zx - m.yx * m.zz ∧
    m.xz = m.yx * m.zy - m.yy * m.zx ∧
    m.yx = m.zy * m.xz - m.zz * m.xy ∧
    m.yy = m.zz * m.xx - m.zx * m.xz ∧
    m.yz = m.zx * m.xy - m.zy * m.xx ∧
    m.zx = m.xy * m.yz - m.xz * m.yy ∧
    m.zy = m.xz * m.yx - m.xx * m.yz ∧
    m.zz = m.xx * m.yy - m.xy * m.yx := by
  obtain ⟨horth, hdet⟩ := hrot
  simp only [Rotation.mul, Rotation.Inverse, Rotation.Identity, Rotation.mk.injEq] at horth
  obtain ⟨hxx, hxy, hxz, hyx, hyy, hyz, hzx, hzy, hzz⟩ := horth
  simp only [Rotation.det] at hdet
  refine ⟨?_, ?_, ?_, ?_, ?_, ?_, ?_, ?_, ?_⟩
  · linear_combination (-m.xx) * hdet + (m.yy * m.zz - m.yz * m.zy) * hxx + (m.zy * m.xz - m.zz * m.xy) * hxy + (m.xy * m.yz - m.xz * m.yy) * hxz
  · linear_combination (-m.xy) * hdet + (m.yz * m.zx - m.yx * m.zz) * hxx + (m.zz * m.xx - m.zx * m.xz) * hxy + (m.xz * m.yx - m.xx * m.yz) * hxz
  · linear_combination (-m.xz) * hdet + (m.yx * m.zy - m.yy * m.zx) * hxx + (m.zx * m.xy - m.zy * m.xx) * hxy + (m.xx * m.yy - m.xy * m.yx) * hxz
  · linear_combination (-m.yx) * hdet + (m.yy * m.zz - m.yz * m.zy) * hyx + (m.zy * m.xz - m.zz * m.xy) * hyy + (m.xy * m.yz - m.xz * m.yy) * hyz
  · linear_combination (-m.yy) * hdet + (m.yz * m.zx - m.yx * m.zz) * hyx + (m.zz * m.xx - m.zx * m.xz) * hyy + (m.xz * m.yx - m.xx * m.yz) * hyz
  · linear_combination (-m.yz) * hdet + (m.yx * m.zy - m.yy * m.zx) * hyx + (m.zx * m.xy - m.zy * m.xx) * hyy + (m.xx * m.yy - m.xy * m.yx) * hyz
  · linear_combination (-m.zx) * hdet + (m.yy * m.zz - m.yz * m.zy) * hzx + (m.zy * m.xz - m.zz * m.xy) * hzy + (m.xy * m.yz - m.xz * m.yy) * hzz
  · linear_combination (-m.zy) * hdet + (m.yz * m.zx - m.yx * m.zz) * hzx + (m.zz * m.xx - m.zx * m.xz) * hzy + (m.xz * m.yx - m.xx * m.yz) * hzz
  · linear_combination (-m.zz) * hdet + (m.yx * m.zy - m.yy * m.zx) * hzx + (m.zx * m.xy - m.zy * m.xx) * hzy + (m.xx * m.yy - m.xy * m.yx) * hzz

theorem Rotation.apply_cross (m : Rotation R) (hrot : m.IsRotation) (u v : Vector R) :
    m.apply (u.cross v) = (m.apply u).cross (m.apply v) := by
  obtain ⟨cxx, cxy, cxz, cyx, cyy, cyz, czx, czy, czz⟩ := Rotation.eq_cofactor m hrot
  simp only [Rotation.apply, Vector.cross, Vector.mk.injEq]
  refine ⟨?_, ?_, ?_⟩
  · linear_combination (u.y * v.z - u.z * v.y) * cxx + (u.z * v.x - u.x * v.z) * cxy
      + (u.x * v.y - u.y * v.x) * cxz
  · linear_combination (u.y * v.z - u.z * v.y) * cyx + (u.z * v.x - u.x * v.z) * cyy
      + (u.x * v.y - u.y * v.x) * cyz
  · linear_combination (u.y * v.z - u.z * v.y) * czx + (u.z * v.x - u.x * v.z) * czy
      + (u.x * v.y - u.y * v.x) * czz

theorem Rotation.apply_add (m : Rotation R) (u v : Vector R) :
    m.apply (u.add v) = (m.apply u).add (m.apply v) := by
  simp only [Rotation.apply, Vector.add, Vector.mk.injEq]
  refine ⟨?_, ?_, ?_⟩ <;> ring

theorem Rotation.mul_apply (a b : Rotation R) (v : Vector R) :
    (a.mul b).apply v = a.apply (b.apply v) := by
  simp only [Rotation.apply, Rotation.mul, Vector.mk.injEq]
  refine ⟨?_, ?_, ?_⟩ <;> ring

theorem Frame.mul_applyWrench (a b : Frame R) (w : Wrench R) (hrot : a.M.IsRotation) :
    (a * b) * w = a * (b * w) := by
  show Frame.applyWrench (Frame.mul a b) w = Frame.applyWrench a (Frame.applyWrench b w)
  simp only [Frame.applyWrench, Frame.mul, Rotation.mul_apply, Rotation.apply_add,
    Rotation.apply_cross a.M hrot, Wrench.mk.injEq, true_and]
  simp only [Vector.add, Vector.cross, Vector.mk.injEq]
  refine ⟨?_, ?_, ?_⟩ <;> ring

theorem Frame.Identity_applyWrench (w : Wrench R) : (1 : Frame R) * w = w := by
  show Frame.applyWrench Frame.Identity w = w
  obtain ⟨⟨fx, fy, fz⟩, ⟨tx, ty, tz⟩⟩ := w
  simp only [Frame.applyWrench, Frame.Identity, Rotation.Identity, Rotation.apply, Vector.add,
    Vector.cross, Wrench.mk.injEq, Vector.mk.injEq]
  refine ⟨⟨?_, ?_, ?_⟩, ⟨?_, ?_, ?_⟩⟩ <;> ring

end RotationAlgebra

end KDL

namespace iDynTree

open KDL (JointType)

section FTSensorOverKDL
variable {Scalar R : Type} [Zero Scalar] [CommRing R]

/-- C13 as stated fails in the arithmetic of `double`: for a sensor on a joint
of type `None` in both directions whose frames are shifts without rotation,
the wrench for the child link has the torque `2^53` where the frame of
`getH_child_sensor()` applied to the measure has `2^53 + 2`: the first adds 1
twice to `2^53` and each sum is rounded back to `2^53`, the second adds 2 once. -/
theorem C13_counterexample :
    shiftSensor.tree_graph.adjacentJointType shiftSensor.child shiftSensor.parent
      = JointType.None ∧
    shiftSensor.tree_graph.adjacentJointType shiftSensor.parent shiftSensor.child
      = JointType.None ∧
    shiftSensor.child ≠ shiftSensor.parent ∧
    (shiftSensor.tree_graph.pose shiftSensor.parent shiftSensor.child 0).M
      = KDL.Rotation.Identity ∧
    shiftSensor.getWrenchExcertedOnSubGraph shiftSensor.child [largeTorqueWrench]
      = .ok ⟨⟨⟨0⟩, ⟨0⟩, ⟨1⟩⟩, ⟨⟨9007199254740992⟩, ⟨0⟩, ⟨0⟩⟩⟩ ∧
    ∃ H_child_sensor : KDL.Frame IntDouble,
      shiftSensor.getH_child_sensor = .ok H_child_sensor ∧
      H_child_sensor * largeTorqueWrench
        = ⟨⟨⟨0⟩, ⟨0⟩, ⟨1⟩⟩, ⟨⟨9007199254740994⟩, ⟨0⟩, ⟨0⟩⟩⟩ ∧
      shiftSensor.getWrenchExcertedOnSubGraph shiftSensor.child [largeTorqueWrench]
        ≠ .ok (H_child_sensor * largeTorqueWrench) :=
  ⟨rfl, rfl, by decide, rfl, rfl, _, rfl, rfl,
    fun h => absurd (Except.ok.inj h) (by decide)⟩

/-- A frame that is not a rigid transform does not compose with its action on
wrenches, also in exact arithmetic. -/
theorem stretchFrame_not_rotation_and_not_compatible :
    ¬ stretchFrame.M.IsRotation ∧
    (stretchFrame * exampleFrame) * exampleWrench
      ≠ stretchFrame * (exampleFrame * exampleWrench) :=
  ⟨fun h => absurd h.2 (by decide), by decide⟩

/-- C13, amended: in exact arithmetic (coordinates in a commutative ring), for
a sensor whose joint is of type `None` in both directions, with child
different from parent, `sensor_id` a valid index, and `H_child_parent` a rigid
transform (its rotation part orthonormal, of determinant 1),
`getH_child_sensor()` returns `H_child_parent * H_parent_sensor` and the
wrench for the child link is that frame applied to
`measured_wrenches[sensor_id]`. -/
theorem C13_child_wrench_by_composed_frame (s : FTSensor Scalar (KDL.Frame R))
    (measured_wrenches : List (KDL.Wrench R)) (f_s : KDL.Wrench R)
    (hcp : s.tree_graph.adjacentJointType s.child s.parent = JointType.None)
    (hpc : s.tree_graph.adjacentJointType s.parent s.child = JointType.None)
    (hne : s.child ≠ s.parent) (hid : 0 ≤ s.sensor_id)
    (hf : measured_wrenches[s.sensor_id.toNat]? = some f_s)
    (hrot : (s.tree_graph.pose s.parent s.child 0).M.IsRotation) :
    ∃ H_child_sensor : KDL.Frame R,
      s.getH_child_sensor = .ok H_child_sensor ∧
      H_child_sensor = s.tree_graph.pose s.parent s.child 0 * s.H_parent_sensor ∧
      s.getWrenchExcertedOnSubGraph s.child measured_wrenches
        = .ok (H_child_sensor * f_s) := by
  refine ⟨s.tree_graph.pose s.parent s.child 0 * s.H_parent_sensor, ?_, rfl, ?_⟩
  · unfold FTSensor.getH_child_sensor
    rw [hcp, hpc]
    rfl
  · unfold FTSensor.getWrenchExcertedOnSubGraph
    rw [if_neg hne, vectorAt_of_getElem? measured_wrenches s.sensor_id f_s hid hf, hcp,
      KDL.Frame.mul_applyWrench _ _ _ hrot]
    simp [assert]
    rfl

/-- C13, amended, at a concrete sensor whose pose across the joint is a shift. -/
theorem C13_child_wrench_by_composed_frame_witness :
    ∃ H_child_sensor : KDL.Frame Int,
      (exampleSensor JointType.None).getH_child_sensor = .ok H_child_sensor ∧
      H_child_sensor = (exampleGraph JointType.None).pose 0 1 0 * exampleFrame ∧
      (exampleSensor JointType.None).getWrenchExcertedOnSubGraph 1 [exampleWrench]
        = .ok (H_child_sensor * exampleWrench) :=
  C13_child_wrench_by_composed_frame (exampleSensor JointType.None) [exampleWrench]
    exampleWrench rfl rfl (by decide) (by decide) rfl ⟨rfl, rfl⟩

/-- C14: a sensor built by the constructor without a transform has the
identity frame as `H_parent_sensor`, and for `sensor_id` a valid index the
wrench for the parent link is `measured_wrenches[sensor_id]` itself. -/
theorem C14_identity_transform (_tree_graph : TreeGraph Scalar (KDL.Frame R))
    (_fixed_joint_name : String) (_parent _child _sensor_id : Int)
    (measured_wrenches : List (KDL.Wrench R)) (f_s : KDL.Wrench R)
    (hid : 0 ≤ _sensor_id) (hf : measured_wrenches[_sensor_id.toNat]? = some f_s) :
    (FTSensor.newIdentity _tree_graph _fixed_joint_name _parent _child
        _sensor_id).getH_parent_sensor = KDL.Frame.Identity ∧
    (FTSensor.newIdentity _tree_graph _fixed_joint_name _parent _child
        _sensor_id).getWrenchExcertedOnSubGraph _parent measured_wrenches = .ok f_s := by
  refine ⟨rfl, ?_⟩
  unfold FTSensor.getWrenchExcertedOnSubGraph
  simp only [FTSensor.newIdentity]
  rw [if_pos trivial, vectorAt_of_getElem? measured_wrenches _sensor_id f_s hid hf]
  show Except.ok ((1 : KDL.Frame R) * f_s) = Except.ok f_s
  rw [KDL.Frame.Identity_applyWrench]

/-- C14, at a concrete sensor built without a transform. -/
theorem C14_identity_transform_witness :
    (FTSensor.newIdentity (exampleGraph JointType.None) "ft" 0 1 0).getH_parent_sensor
      = KDL.Frame.Identity ∧
    (FTSensor.newIdentity (exampleGraph JointType.None) "ft" 0 1
        0).getWrenchExcertedOnSubGraph 0 [exampleWrench] = .ok exampleWrench :=
  C14_identity_transform (exampleGraph JointType.None) "ft" 0 1 0 [exampleWrench] exampleWrench
    (by decide) rfl

end FTSensorOverKDL

end iDynTree
